import Mathlib

/-!
# MongoDBServer: the GraphQL resolvers over a document store

A shallow embedding of the resolver map of `src/index.js` (the `getAllUsers`,
`createUser`, `updateUser` and `deleteUser` resolvers of `src/temp.js` have the
same bodies, apart from logging).

The resolvers are translated line by line.  What they call is not part of the
repository: the document store reached through Mongoose, and the JavaScript
built-ins (`||`, number arithmetic, `Date`).  Those are modelled here by
explicit state passing over two collections and by functions on integers, each
with a comment saying which documented behaviour it stands for.

Conventions.
* A collection is the list of its documents in natural (insertion) order.
* A GraphQL `ID` is any string.  Mongoose casts it to an `ObjectId` before it
  issues a query, and rejects the call with a `CastError` when the string is
  not twenty-four hexadecimal digits.
* Operations that can be rejected return `Except StoreError`; a rejected call
  has changed nothing, so it returns no store.  Loss of the connection and
  other failures of the environment are not modelled.
-/

namespace MongoDBServer

/-- Results of fallible operations can be compared. -/
instance instDecidableEqExcept {ε α : Type} [DecidableEq ε] [DecidableEq α] :
    DecidableEq (Except ε α)
  | .ok a, .ok b => if h : a = b then isTrue (congrArg Except.ok h)
      else isFalse fun h' => h (Except.ok.inj h')
  | .error a, .error b => if h : a = b then isTrue (congrArg Except.error h)
      else isFalse fun h' => h (Except.error.inj h')
  | .ok _, .error _ => isFalse fun h' => Except.noConfusion h'
  | .error _, .ok _ => isFalse fun h' => Except.noConfusion h'

/-! ## JavaScript numbers -/

/-- The position of the leading bit of `n`, searched in at most `fuel` halvings. -/
def log2Fuel : Nat → Nat → Nat
  | 0, _ => 0
  | fuel + 1, n => if n < 2 then 0 else log2Fuel fuel (n / 2) + 1

/-- The position of the leading bit of `n`: the floor of its binary logarithm. -/
def floorLog2 (n : Nat) : Nat := log2Fuel n n

/-- The integer a JavaScript number holds after an arithmetic result `n`:
integers of magnitude below `2 ^ 53` are exact, larger ones are rounded to 53
significant bits, to nearest with ties to even. -/
def roundDouble (n : Int) : Int :=
  let a := n.natAbs
  if a < 2 ^ 53 then n
  else
    let e := floorLog2 a - 52
    let q := a / 2 ^ e
    let r := a % 2 ^ e
    let half := 2 ^ (e - 1)
    let q' := if half < r ∨ (r = half ∧ q % 2 = 1) then q + 1 else q
    Int.sign n * ((q' * 2 ^ e : Nat) : Int)

/-- JavaScript `a - b` on integer-valued numbers. -/
def jsSub (a b : Int) : Int := roundDouble (a - b)

/-- JavaScript `a * b` on integer-valued numbers. -/
def jsMul (a b : Int) : Int := roundDouble (a * b)

/-- JavaScript `x || d` where `x` is an optional GraphQL `Int`: `undefined`,
`null` (both `none`) and `0` are falsy and give `d`. -/
def jsOr (x : Option Int) (d : Int) : Int :=
  match x with
  | some v => if v = 0 then d else v
  | none => d

/-! ## Documents and the store -/

/-- Ways a call on a model is rejected: by the server (a negative skip, a taken
`_id`), or by Mongoose before anything is sent (a value that does not cast to
the type of its path, in a query or on validation of a document). -/
inductive StoreError where
  | negativeSkip
  | duplicateKey
  | castError
  | validationError
deriving DecidableEq, Repr

/-- A store identifier (`mongoose.Types.ObjectId`): twelve bytes, as the number
they spell. -/
structure ObjectId where
  value : Nat
  isLt : value < 16 ^ 24
deriving DecidableEq, Repr

/-- The identifier that spells `n`, counted modulo the twelve bytes. -/
def ObjectId.ofNat (n : Nat) : ObjectId := ⟨n % 16 ^ 24, Nat.mod_lt _ (by decide)⟩

/-- The `w` lowest hexadecimal digits of `v`, in lowercase, highest first. -/
def hexDigits : Nat → Nat → List Char
  | 0, _ => []
  | w + 1, v => hexDigits w (v / 16) ++ [Nat.digitChar (v % 16)]

/-- The `toString` of an `ObjectId`: twenty-four lowercase hexadecimal digits. -/
def ObjectId.toHexString (oid : ObjectId) : String := String.mk (hexDigits 24 oid.value)

/-- The value of a hexadecimal digit of either case. -/
def hexDigitVal (c : Char) : Option Nat :=
  if 48 ≤ c.toNat ∧ c.toNat ≤ 57 then some (c.toNat - 48)
  else if 97 ≤ c.toNat ∧ c.toNat ≤ 102 then some (c.toNat - 87)
  else if 65 ≤ c.toNat ∧ c.toNat ≤ 70 then some (c.toNat - 55)
  else none

/-- The number a list of hexadecimal digits spells, if all of them are. -/
def hexVal (cs : List Char) : Option Nat :=
  cs.foldl (fun acc c => acc.bind fun a => (hexDigitVal c).map fun d => 16 * a + d) (some 0)

/-- Mongoose's cast of a GraphQL `ID` string to an `ObjectId`, as the current
driver does it: a string of twenty-four hexadecimal digits of either case
casts to the identifier it spells, any other string is a `CastError`. -/
def castObjectId (id : String) : Except StoreError ObjectId :=
  if id.length = 24 then
    match hexVal id.data with
    | some v => .ok (ObjectId.ofNat v)
    | none => .error .castError
  else .error .castError

/-- A document of the `User` model (`src/index.js` lines 12-22).  A field that
is `null` or missing in the document is `none`. -/
structure User where
  _id : ObjectId
  name : String
  email : String
  phone : String
  age : Option Int
  profession : Option String
  address : Option String
deriving DecidableEq, Repr

/-- The `id` virtual Mongoose gives every document, which GraphQL serves as the
`id` field: the string of `_id`. -/
def User.id (u : User) : String := u._id.toHexString

/-- A document of the `Post` model (`src/index.js` lines 24-35); `createdAt` is
the time of the stored date, in milliseconds since the epoch.  The `updatedAt`
field of `timestamps: true` is served by no resolver and is left out. -/
structure Post where
  _id : ObjectId
  userId : ObjectId
  title : String
  content : String
  createdAt : Int
deriving DecidableEq, Repr

/-- An optional field of a GraphQL input object: left out, given as `null`, or
given a value. -/
inductive InputField (α : Type) where
  | absent : InputField α
  | null : InputField α
  | value (a : α) : InputField α
deriving DecidableEq, Repr

/-- What a document holds for the field after `new Model(input)`. -/
def InputField.toField {α : Type} : InputField α → Option α
  | .absent => none
  | .null => none
  | .value a => some a

/-- What a document holds for the field after an update that sets the keys the
input has: a key left out keeps the old value. -/
def InputField.applyTo {α : Type} (old : Option α) : InputField α → Option α
  | .absent => old
  | .null => none
  | .value a => some a

/-- GraphQL `input UserInput`. -/
structure UserInput where
  name : String
  email : String
  phone : String
  age : InputField Int
  profession : InputField String
  address : InputField String
deriving DecidableEq, Repr

/-- GraphQL `input PostInput`; `userId` is an `ID`, any string. -/
structure PostInput where
  title : String
  content : String
  userId : String
deriving DecidableEq, Repr

/-- GraphQL `input PaginateOptions`. -/
structure PaginateOptions where
  page : Option Int
  limit : Option Int
deriving DecidableEq, Repr

/-- GraphQL `input PageQueryOptions`. -/
structure PageQueryOptions where
  paginate : Option PaginateOptions
deriving DecidableEq, Repr

/-- GraphQL `type MetaData`. -/
structure MetaData where
  totalCount : Int
deriving DecidableEq, Repr

/-- GraphQL `type UserList`. -/
structure UserList where
  data : List User
  meta : MetaData
deriving DecidableEq, Repr

/-- The state the resolvers act on: the two collections, and the count of the
identifiers the client-side `ObjectId` generator has handed out. -/
structure Store where
  users : List User
  posts : List Post
  nextId : Nat
deriving DecidableEq, Repr

/-- Well-formed stores: `_id` is unique in each collection (the store's primary
key index) and every identifier in use was handed out by the generator. -/
def Store.WF (s : Store) : Prop :=
  (s.users.map (fun u => u._id)).Nodup ∧ (s.posts.map (fun p => p._id)).Nodup ∧
  (∀ u ∈ s.users, u._id.value < s.nextId) ∧ (∀ p ∈ s.posts, p._id.value < s.nextId)

instance (s : Store) : Decidable s.WF := by
  unfold Store.WF; infer_instance

/-- The store before any mutation. -/
def Store.empty : Store := { users := [], posts := [], nextId := 0 }

/-! ### Store operations (Mongoose model methods) -/

/-- The documents of the first batch of a cursor when no batch size is asked
for (the default of the server). -/
def firstBatch : Nat := 101

/-- `Model.find().skip(skip).limit(limit)`: the documents in natural order
after the first `skip`, at most `limit` of them.  The server rejects a negative
skip; a limit of `0` means no limit; a negative limit is sent by the driver as
its absolute value with the cursor closed after one batch. -/
def findSkipLimit {α : Type} (docs : List α) (skip limit : Int) : Except StoreError (List α) :=
  if skip < 0 then .error .negativeSkip
  else
    let rest := docs.drop skip.toNat
    .ok (if limit = 0 then rest
         else if limit < 0 then rest.take (min limit.natAbs firstBatch)
         else rest.take limit.toNat)

/-- `Model.countDocuments()`: the size of the collection, as a JavaScript number. -/
def countDocuments {α : Type} (docs : List α) : Int := roundDouble docs.length

/-- `User.findById(id)`: the document with that `_id`, or `null`. -/
def User.findById (docs : List User) (id : ObjectId) : Option User :=
  docs.find? fun u => u._id == id

/-- `new User(input)`: a document with a generated `_id` and the input's fields. -/
def User.new (oid : ObjectId) (input : UserInput) : User :=
  { _id := oid, name := input.name, email := input.email, phone := input.phone,
    age := input.age.toField, profession := input.profession.toField,
    address := input.address.toField }

/-- `user.save()` of a new document: an insert, which the primary key index
rejects when the `_id` is taken. -/
def User.save (docs : List User) (doc : User) : Except StoreError (List User) :=
  if docs.any (fun u => u._id == doc._id) then .error .duplicateKey else .ok (docs ++ [doc])

/-- The update `findByIdAndUpdate` applies for an input object: `$set` of the
keys the input has. -/
def User.applyUpdate (u : User) (input : UserInput) : User :=
  { u with name := input.name, email := input.email, phone := input.phone,
           age := input.age.applyTo u.age, profession := input.profession.applyTo u.profession,
           address := input.address.applyTo u.address }

/-- The collection after the first document with `_id = id` is updated in place. -/
def User.updateFirst (docs : List User) (id : ObjectId) (input : UserInput) : List User :=
  match docs with
  | [] => []
  | u :: rest =>
    if u._id == id then u.applyUpdate input :: rest else u :: User.updateFirst rest id input

/-- `User.findByIdAndUpdate(id, input, { new: true })`: the document after the
update (or `null` when none has that `_id`: no upsert), and the collection. -/
def User.findByIdAndUpdate (docs : List User) (id : ObjectId) (input : UserInput) :
    Option User × List User :=
  ((User.findById docs id).map fun u => u.applyUpdate input, User.updateFirst docs id input)

/-- `User.findByIdAndDelete(id)`: the removed document (or `null`), and the
collection without it. -/
def User.findByIdAndDelete (docs : List User) (id : ObjectId) : Option User × List User :=
  (User.findById docs id, docs.eraseP fun u => u._id == id)

/-- The order of `sort({ createdAt: -1 })`: `a` may stand before `b`. -/
def Post.notOlder (a b : Post) : Prop := b.createdAt ≤ a.createdAt

instance : DecidableRel Post.notOlder := fun a b =>
  inferInstanceAs (Decidable (b.createdAt ≤ a.createdAt))

instance : IsTotal Post Post.notOlder := ⟨fun a b => by
  unfold Post.notOlder; exact le_total b.createdAt a.createdAt⟩

instance : IsTrans Post Post.notOlder := ⟨fun a b c hab hbc => by
  unfold Post.notOlder at *; exact le_trans hbc hab⟩

/-- `Post.find({ userId }).sort({ createdAt: -1 })`: the posts of that user,
latest first.  Posts of equal `createdAt` keep their natural order here; the
store promises no order among them. -/
def Post.findByUserSorted (docs : List Post) (userId : ObjectId) : List Post :=
  (docs.filter fun p => p.userId == userId).insertionSort Post.notOlder

/-- `new Post(input)` once `input.userId` has cast to `userId`: a document with
a generated `_id`, the input's fields, and `createdAt` defaulted to
`Date.now()`. -/
def Post.new (oid userId : ObjectId) (input : PostInput) (now : Int) : Post :=
  { _id := oid, userId := userId, title := input.title, content := input.content,
    createdAt := now }

/-- `post.save()` of a new document. -/
def Post.save (docs : List Post) (doc : Post) : Except StoreError (List Post) :=
  if docs.any (fun p => p._id == doc._id) then .error .duplicateKey else .ok (docs ++ [doc])

/-! ## Resolvers

A resolver hands the `ID` it receives to the model as it is; the model casts
it, and with no `try` in the resolver a failed cast rejects the call. -/

/-- `const page = options?.paginate?.page || 1;` -/
def getAllUsers.page (options : Option PageQueryOptions) : Int :=
  jsOr ((options.bind fun o => o.paginate).bind fun p => p.page) 1

/-- `const limit = options?.paginate?.limit || 10;` -/
def getAllUsers.limit (options : Option PageQueryOptions) : Int :=
  jsOr ((options.bind fun o => o.paginate).bind fun p => p.limit) 10

/-- `const skip = (page - 1) * limit;` -/
def getAllUsers.skip (options : Option PageQueryOptions) : Int :=
  jsMul (jsSub (getAllUsers.page options) 1) (getAllUsers.limit options)

/-- `Query.getAllUsers` (`src/index.js` lines 110-122, `src/temp.js` lines 63-77). -/
def getAllUsers (s : Store) (options : Option PageQueryOptions) : Except StoreError UserList := do
  let users ← findSkipLimit s.users (getAllUsers.skip options) (getAllUsers.limit options)
  let totalCount := countDocuments s.users
  pure { data := users, meta := { totalCount := totalCount } }

/-- `Query.getUser` (`src/index.js` line 108): `User.findById(id)`. -/
def getUser (s : Store) (id : String) : Except StoreError (Option User) := do
  let oid ← castObjectId id
  pure (User.findById s.users oid)

/-- `Query.getPostsByUser` (`src/index.js` lines 124-126):
`Post.find({ userId }).sort({ createdAt: -1 })`. -/
def getPostsByUser (s : Store) (userId : String) : Except StoreError (List Post) := do
  let oid ← castObjectId userId
  pure (Post.findByUserSorted s.posts oid)

/-- `Mutation.createUser` (`src/index.js` lines 130-133). -/
def createUser (s : Store) (input : UserInput) : Except StoreError (User × Store) := do
  let user := User.new (ObjectId.ofNat s.nextId) input
  let users ← User.save s.users user
  pure (user, { s with users := users, nextId := s.nextId + 1 })

/-- `Mutation.updateUser` (`src/index.js` lines 135-137):
`User.findByIdAndUpdate(id, input, { new: true })`. -/
def updateUser (s : Store) (id : String) (input : UserInput) :
    Except StoreError (Option User × Store) := do
  let oid ← castObjectId id
  let r := User.findByIdAndUpdate s.users oid input
  pure (r.1, { s with users := r.2 })

/-- `Mutation.deleteUser` (`src/index.js` lines 139-142):
`User.findByIdAndDelete(id)`, then `!!result`. -/
def deleteUser (s : Store) (id : String) : Except StoreError (Bool × Store) := do
  let oid ← castObjectId id
  let r := User.findByIdAndDelete s.users oid
  pure (r.1.isSome, { s with users := r.2 })

/-- `Mutation.createPost` (`src/index.js` lines 144-147); `now` is what
`Date.now()` reads when the document is built.  A `userId` that does not cast
fails the validation `save()` runs. -/
def createPost (s : Store) (input : PostInput) (now : Int) : Except StoreError (Post × Store) :=
  match castObjectId input.userId with
  | .error _ => .error .validationError
  | .ok userId => do
    let post := Post.new (ObjectId.ofNat s.nextId) userId input now
    let posts ← Post.save s.posts post
    pure (post, { s with posts := posts, nextId := s.nextId + 1 })

/-! ## JavaScript dates

The time value of a `Date` is an integer number of milliseconds since the epoch
of magnitude at most `8.64e15`, or `NaN` (an invalid date), here `none`.  The
functions below are the abstract operations of ECMA-262 (Day, YearFromTime,
MonthFromTime, ...) under their names there. -/

/-- A value `post.createdAt` can hold: a `Date` object with its time value, a
string, `null`, or `undefined` for a missing field. -/
inductive JsValue where
  | date (tv : Option Int) : JsValue
  | str (s : String) : JsValue
  | null : JsValue
  | undefined : JsValue
deriving DecidableEq, Repr

/-- Exceptions a resolver can throw. -/
inductive JsError where
  | rangeError
deriving DecidableEq, Repr

/-- ECMA-262 TimeClip on an integer: beyond `8.64e15` in magnitude it is `NaN`. -/
def timeClip (t : Int) : Option Int :=
  if t.natAbs ≤ 8640000000000000 then some t else none

/-- ECMA-262 Day(t). -/
def Day (t : Int) : Int := t / 86400000

/-- ECMA-262 DaysInYear(y). -/
def DaysInYear (y : Int) : Int :=
  if y % 4 ≠ 0 then 365 else if y % 100 ≠ 0 then 366 else if y % 400 ≠ 0 then 365 else 366

/-- ECMA-262 DayFromYear(y). -/
def DayFromYear (y : Int) : Int :=
  365 * (y - 1970) + (y - 1969) / 4 - (y - 1901) / 100 + (y - 1601) / 400

/-- ECMA-262 YearFromTime(t), the largest `y` with `DayFromYear y ≤ Day t`:
computed from the mean length of a year and corrected by one year either way
(`yearFromTime_spec` shows it is that year). -/
def YearFromTime (t : Int) : Int :=
  let d := Day t
  let y := 1970 + 400 * d / 146097
  if d < DayFromYear y then y - 1 else if DayFromYear (y + 1) ≤ d then y + 1 else y

/-- ECMA-262 InLeapYear(t). -/
def InLeapYear (t : Int) : Int := if DaysInYear (YearFromTime t) = 366 then 1 else 0

/-- ECMA-262 DayWithinYear(t). -/
def DayWithinYear (t : Int) : Int := Day t - DayFromYear (YearFromTime t)

/-- The month, 0 for January, of day `d` of a year, `l` being 1 in a leap year
and 0 otherwise: the table of ECMA-262 MonthFromTime. -/
def monthOfDay (d l : Int) : Int :=
  if d < 31 then 0 else if d < 59 + l then 1 else if d < 90 + l then 2
  else if d < 120 + l then 3 else if d < 151 + l then 4 else if d < 181 + l then 5
  else if d < 212 + l then 6 else if d < 243 + l then 7 else if d < 273 + l then 8
  else if d < 304 + l then 9 else if d < 334 + l then 10 else 11

/-- The day of the month, from 1, of day `d` of a year: the table of ECMA-262
DateFromTime. -/
def dateOfDay (d l : Int) : Int :=
  let m := monthOfDay d l
  if m = 0 then d + 1 else if m = 1 then d - 30 else if m = 2 then d - 58 - l
  else if m = 3 then d - 89 - l else if m = 4 then d - 119 - l else if m = 5 then d - 150 - l
  else if m = 6 then d - 180 - l else if m = 7 then d - 211 - l else if m = 8 then d - 242 - l
  else if m = 9 then d - 272 - l else if m = 10 then d - 303 - l else d - 333 - l

/-- ECMA-262 MonthFromTime(t), 0 for January. -/
def MonthFromTime (t : Int) : Int := monthOfDay (DayWithinYear t) (InLeapYear t)

/-- ECMA-262 DateFromTime(t), the day of the month from 1. -/
def DateFromTime (t : Int) : Int := dateOfDay (DayWithinYear t) (InLeapYear t)

/-- ECMA-262 HourFromTime(t). -/
def HourFromTime (t : Int) : Int := t / 3600000 % 24

/-- ECMA-262 MinFromTime(t). -/
def MinFromTime (t : Int) : Int := t / 60000 % 60

/-- ECMA-262 SecFromTime(t). -/
def SecFromTime (t : Int) : Int := t / 1000 % 60

/-- ECMA-262 msFromTime(t). -/
def msFromTime (t : Int) : Int := t % 1000

/-- The decimal digit of the units of `n`. -/
def dig (n : Nat) : Char := Nat.digitChar (n % 10)

/-- Two decimal digits, zero padded. -/
def pad2 (n : Nat) : List Char := [dig (n / 10), dig n]

/-- Three decimal digits, zero padded. -/
def pad3 (n : Nat) : List Char := [dig (n / 100), dig (n / 10), dig n]

/-- Four decimal digits, zero padded. -/
def pad4 (n : Nat) : List Char := [dig (n / 1000), dig (n / 100), dig (n / 10), dig n]

/-- Six decimal digits, zero padded. -/
def pad6 (n : Nat) : List Char :=
  [dig (n / 100000), dig (n / 10000), dig (n / 1000), dig (n / 100), dig (n / 10), dig n]

/-- The year of the Date Time String Format: four digits for the years 0 to
9999, otherwise a sign and six digits. -/
def yearChars (y : Int) : List Char :=
  if 0 ≤ y ∧ y ≤ 9999 then pad4 y.toNat
  else (if y < 0 then '-' else '+') :: pad6 y.natAbs

/-- The characters of `YYYY-MM-DDTHH:mm:ss.sssZ` for the time value `t`. -/
def toISOChars (t : Int) : List Char :=
  yearChars (YearFromTime t) ++ '-' :: pad2 (MonthFromTime t + 1).toNat ++
    '-' :: pad2 (DateFromTime t).toNat ++ 'T' :: pad2 (HourFromTime t).toNat ++
    ':' :: pad2 (MinFromTime t).toNat ++ ':' :: pad2 (SecFromTime t).toNat ++
    '.' :: pad3 (msFromTime t).toNat ++ ['Z']

/-- `Date.prototype.toISOString`: a `RangeError` for an invalid date. -/
def toISOString (tv : Option Int) : Except JsError String :=
  match tv with
  | none => .error .rangeError
  | some t => .ok (String.mk (toISOChars t))

/-! ### The Date Time String Format -/

/-- The value of a decimal digit. -/
def digitVal (c : Char) : Nat := c.toNat - 48

/-- The number a list of decimal digits spells. -/
def numVal (cs : List Char) : Nat := cs.foldl (fun a c => 10 * a + digitVal c) 0

/-- The fields of a date-time: the month and the day count from 1. -/
structure DateFields where
  year : Int
  month : Nat
  day : Nat
  hour : Nat
  minute : Nat
  second : Nat
  ms : Nat
deriving DecidableEq, Repr

/-- The fields spelt by `-MM-DDTHH:mm:ss.sssZ` after a year. -/
def readFields (year : Int) (rest : List Char) : Option DateFields :=
  match rest with
  | [c0, m1, m2, c1, d1, d2, c2, h1, h2, c3, n1, n2, c4, s1, s2, c5, f1, f2, f3, c6] =>
    if (c0 == '-' && c1 == '-' && c2 == 'T' && c3 == ':' && c4 == ':' && c5 == '.' &&
        c6 == 'Z' && [m1, m2, d1, d2, h1, h2, n1, n2, s1, s2, f1, f2, f3].all Char.isDigit) = true
    then some { year := year, month := numVal [m1, m2], day := numVal [d1, d2],
                hour := numVal [h1, h2], minute := numVal [n1, n2], second := numVal [s1, s2],
                ms := numVal [f1, f2, f3] }
    else none
  | _ => none

/-- The fields spelt by `YYYY-MM-DDTHH:mm:ss.sssZ`, or by the same with an
expanded year `±YYYYYY` other than `-000000`. -/
def readDateTime (s : String) : Option DateFields :=
  match s.data with
  | sg :: y1 :: y2 :: y3 :: y4 :: y5 :: y6 :: rest =>
    if sg = '+' then
      if [y1, y2, y3, y4, y5, y6].all Char.isDigit = true then
        readFields (numVal [y1, y2, y3, y4, y5, y6]) rest
      else none
    else if sg = '-' then
      if [y1, y2, y3, y4, y5, y6].all Char.isDigit = true ∧ numVal [y1, y2, y3, y4, y5, y6] ≠ 0 then
        readFields (-(numVal [y1, y2, y3, y4, y5, y6] : Int)) rest
      else none
    else if [sg, y1, y2, y3].all Char.isDigit = true then
      readFields (numVal [sg, y1, y2, y3]) (y4 :: y5 :: y6 :: rest)
    else none
  | _ => none

/-- The days of month `m` (1 for January) in year `y`. -/
def daysInMonth (y : Int) (m : Nat) : Nat :=
  if m = 2 then (if DaysInYear y = 366 then 29 else 28)
  else if m = 4 ∨ m = 6 ∨ m = 9 ∨ m = 11 then 30 else 31

/-- Whether the fields name a day of the calendar and a time of that day. -/
def DateFields.inRange (f : DateFields) : Bool :=
  decide (1 ≤ f.month) && decide (f.month ≤ 12) && decide (1 ≤ f.day) &&
  decide (f.day ≤ daysInMonth f.year f.month) && decide (f.hour ≤ 23) &&
  decide (f.minute ≤ 59) && decide (f.second ≤ 59)

/-- Whether a string is a complete date-time of the ECMA-262 Date Time String
Format in UTC, the profile of the ISO 8601 extended format that `toISOString`
writes: `YYYY-MM-DDTHH:mm:ss.sssZ`, or with an expanded year `±YYYYYY` (not
`-000000`), every field in range. -/
def isISODateTime (s : String) : Bool :=
  match readDateTime s with
  | some f => f.inRange
  | none => false

/-- The first day of month `m` (0 for January) within its year, `l` being 1 in a
leap year. -/
def monthStart (m l : Int) : Int :=
  if m = 0 then 0 else if m = 1 then 31 else if m = 2 then 59 + l else if m = 3 then 90 + l
  else if m = 4 then 120 + l else if m = 5 then 151 + l else if m = 6 then 181 + l
  else if m = 7 then 212 + l else if m = 8 then 243 + l else if m = 9 then 273 + l
  else if m = 10 then 304 + l else 334 + l

/-- ECMA-262 MakeDay for a month from 0 to 11. -/
def MakeDay (year month date : Int) : Int :=
  DayFromYear year + monthStart month (if DaysInYear year = 366 then 1 else 0) + date - 1

/-- ECMA-262 MakeTime. -/
def MakeTime (hour min sec ms : Int) : Int := hour * 3600000 + min * 60000 + sec * 1000 + ms

/-- ECMA-262 MakeDate. -/
def MakeDate (day time : Int) : Int := day * 86400000 + time

/-- The time the fields name, in UTC. -/
def DateFields.timeValue (f : DateFields) : Int :=
  MakeDate (MakeDay f.year ((f.month : Int) - 1) f.day) (MakeTime f.hour f.minute f.second f.ms)

/-- `Date.parse`: the time a complete UTC date-time of the Date Time String
Format names; on any other string the answer is left to the implementation
(`impl`; `none` is `NaN`). -/
def dateParse (impl : String → Option Int) (s : String) : Option Int :=
  match readDateTime s with
  | some f => if f.inRange = true then some f.timeValue else impl s
  | none => impl s

/-- The time value of `new Date(value)`. -/
def newDate (impl : String → Option Int) (value : JsValue) : Option Int :=
  match value with
  | .date tv => tv
  | .str s => (dateParse impl s).bind timeClip
  | .null => some 0
  | .undefined => none

/-- The parent object of the `Post` field resolvers, as far as they read it. -/
structure PostObject where
  createdAt : JsValue
deriving DecidableEq, Repr

/-- What the driver hands to Mongoose for the `createdAt` a post holds in the
store: a `Date` of the stored time, an invalid one when JavaScript cannot hold
that time. -/
def Post.storedCreatedAt (p : Post) : JsValue := .date (timeClip p.createdAt)

/-- The `createdAt` of the Mongoose document made from a stored value, the path
being `{ type: Date, default: Date.now }`: a valid date stays; a string is cast
through `new Date`, the empty string to `null`; `null` stays; a value that does
not cast (an invalid date, a string that is no date) and a missing field give
way to the default, the date of `now`.  `impl` is what the cast makes of a
string outside the Date Time String Format. -/
def hydrateCreatedAt (impl : String → Option Int) (now : Int) (stored : JsValue) : JsValue :=
  match stored with
  | .date tv =>
    match tv.bind timeClip with
    | some t => .date (some t)
    | none => .date (timeClip now)
  | .str s =>
    if s = "" then .null
    else
      match (dateParse impl s).bind timeClip with
      | some t => .date (some t)
      | none => .date (timeClip now)
  | .null => .null
  | .undefined => .date (timeClip now)

/-- The Mongoose document of a stored post as the field resolvers see it;
`now` is what `Date.now()` reads if the default is needed. -/
def Post.toObject (impl : String → Option Int) (now : Int) (p : Post) : PostObject :=
  { createdAt := hydrateCreatedAt impl now p.storedCreatedAt }

/-- `Post.createdAt` of the resolver map (`src/index.js` lines 150-156); `impl`
is what the JavaScript engine adds to `Date.parse`. -/
def PostResolvers.createdAt (impl : String → Option Int) (post : PostObject) :
    Except JsError String :=
  match post.createdAt with
  | .date tv => toISOString tv
  | v => toISOString (newDate impl v)

/-- The length of month `m` (0 for January), `l` being 1 in a leap year. -/
def monthLen (m l : Int) : Int :=
  if m = 1 then 28 + l else if m = 3 ∨ m = 5 ∨ m = 8 ∨ m = 10 then 30 else 31

/-- The fields `toISOString` writes for the time value `t`. -/
def fieldsOfTime (t : Int) : DateFields :=
  { year := YearFromTime t, month := (MonthFromTime t + 1).toNat, day := (DateFromTime t).toNat,
    hour := (HourFromTime t).toNat, minute := (MinFromTime t).toNat,
    second := (SecFromTime t).toNat, ms := (msFromTime t).toNat }

/-! ## Sample data -/

/-- The input of the spec's scenario: name, email and phone only. -/
def sampleInput : UserInput :=
  { name := "A", email := "a@x.com", phone := "1", age := .absent, profession := .absent,
    address := .absent }

/-- A second input, with every field given. -/
def sampleInputFull : UserInput :=
  { name := "B", email := "b@x.com", phone := "2", age := .value 30, profession := .value "dev",
    address := .null }

/-- A store with two users and three posts, two of them of the first user. -/
def sampleStore : Store :=
  { users := [User.new (.ofNat 0) sampleInput, User.new (.ofNat 1) sampleInputFull],
    posts := [{ _id := .ofNat 2, userId := .ofNat 0, title := "T1", content := "C1",
                createdAt := 1000 },
              { _id := .ofNat 3, userId := .ofNat 1, title := "T2", content := "C2",
                createdAt := 1500 },
              { _id := .ofNat 4, userId := .ofNat 0, title := "T3", content := "C3",
                createdAt := 2000 }],
    nextId := 5 }

/-- A store with seven users and no posts. -/
def sevenUsers : Store :=
  { users := [User.new (.ofNat 0) sampleInput, User.new (.ofNat 1) sampleInputFull,
              User.new (.ofNat 2) sampleInput, User.new (.ofNat 3) sampleInputFull,
              User.new (.ofNat 4) sampleInput, User.new (.ofNat 5) sampleInput,
              User.new (.ofNat 6) sampleInputFull],
    posts := [],
    nextId := 7 }

/-! ## Reachable stores -/

/-- The stores the mutations can produce from the empty store. -/
inductive Reachable : Store → Prop where
  | empty : Reachable Store.empty
  | createUser {s s' : Store} {u : User} (input : UserInput) :
      Reachable s → createUser s input = .ok (u, s') → Reachable s'
  | updateUser {s s' : Store} {r : Option User} (id : String) (input : UserInput) :
      Reachable s → updateUser s id input = .ok (r, s') → Reachable s'
  | deleteUser {s s' : Store} {b : Bool} (id : String) :
      Reachable s → deleteUser s id = .ok (b, s') → Reachable s'
  | createPost {s s' : Store} {p : Post} (input : PostInput) (now : Int) :
      Reachable s → createPost s input now = .ok (p, s') → Reachable s'

/-! ## Lemmas on JavaScript numbers -/

theorem roundDouble_of_lt (n : Int) (h : n.natAbs < 2 ^ 53) : roundDouble n = n := by
  unfold roundDouble
  simp only
  rw [if_pos h]

theorem log2Fuel_eq (fuel n : Nat) (h : n ≤ fuel) : log2Fuel fuel n = Nat.log2 n := by
  induction fuel generalizing n with
  | zero =>
    have : n = 0 := by omega
    subst this
    rw [Nat.log2]
    rfl
  | succ k ih =>
    rw [log2Fuel, Nat.log2]
    by_cases h2 : n < 2
    · rw [if_pos h2, if_neg (by omega)]
    · rw [if_neg h2, if_pos (by omega), ih (n / 2) (by omega)]

theorem floorLog2_eq (n : Nat) : floorLog2 n = Nat.log2 n := log2Fuel_eq n n (le_refl n)

/-- Rounding to 53 significant bits on sample values: exact below `2 ^ 53`, to
the nearest representable number above, ties to the even one. -/
theorem roundDouble_examples :
    roundDouble 0 = 0 ∧ roundDouble (-10) = -10 ∧
    roundDouble 9007199254740993 = 9007199254740992 ∧
    roundDouble 9007199254740995 = 9007199254740996 ∧
    roundDouble (-9007199254740995) = -9007199254740996 ∧
    roundDouble 1152921504606847104 = 1152921504606846976 ∧
    roundDouble 1152921504606847360 = 1152921504606847488 ∧
    jsMul (jsSub 2147483647 1) 2147483647 = 4611686011984936960 := by
  decide

theorem roundDouble_nonneg (n : Int) (h : 0 ≤ n) : 0 ≤ roundDouble n := by
  unfold roundDouble
  simp only
  split
  · exact h
  · exact Int.mul_nonneg (Int.sign_nonneg.mpr h) (Int.ofNat_nonneg _)

theorem roundDouble_large (n : Int) (h : 2 ^ 53 ≤ n) : 2 ^ 53 ≤ roundDouble n := by
  have hn : 0 < n := lt_of_lt_of_le (by norm_num) h
  have ha : 2 ^ 53 ≤ n.natAbs := by omega
  have ha0 : n.natAbs ≠ 0 := by omega
  have hlog : 53 ≤ Nat.log2 n.natAbs := (Nat.le_log2 ha0).2 ha
  unfold roundDouble
  simp only
  rw [if_neg (by omega), Int.sign_eq_one_of_pos hn, one_mul, floorLog2_eq]
  generalize he : Nat.log2 n.natAbs - 52 = e
  have hpow : 2 ^ 52 * 2 ^ e ≤ n.natAbs := by
    have h1 := Nat.log2_self_le ha0
    have h2 : Nat.log2 n.natAbs = 52 + e := by omega
    rw [h2, pow_add] at h1
    exact h1
  have hq : 2 ^ 52 ≤ n.natAbs / 2 ^ e := by
    rw [Nat.le_div_iff_mul_le (by positivity)]
    exact hpow
  have he1 : 2 ≤ 2 ^ e := by
    have h3 : 1 ≤ e := by omega
    calc 2 = 2 ^ 1 := by norm_num
      _ ≤ 2 ^ e := Nat.pow_le_pow_right (by norm_num) h3
  have key : ∀ q' : Nat, n.natAbs / 2 ^ e ≤ q' → (2 : Int) ^ 53 ≤ ((q' * 2 ^ e : Nat) : Int) := by
    intro q' hq'
    have h4 : 2 ^ 52 * 2 ≤ q' * 2 ^ e := Nat.mul_le_mul (le_trans hq hq') he1
    have h5 : (2 : Nat) ^ 53 ≤ q' * 2 ^ e := by
      calc (2 : Nat) ^ 53 = 2 ^ 52 * 2 := by norm_num
        _ ≤ q' * 2 ^ e := h4
    exact_mod_cast h5
  split
  · exact key _ (Nat.le_succ _)
  · exact key _ (le_refl _)

/-! ## Pagination -/

theorem jsOr_some (v d : Int) : jsOr (some v) d = if v = 0 then d else v := rfl

theorem jsSub_one_nonneg (page : Int) (h : 1 ≤ page) : 0 ≤ jsSub page 1 :=
  roundDouble_nonneg _ (by omega)

/-- The skip of a window at page `page ≥ 1` of `limit ≥ 1` records drops the
same records of a collection of fewer than `2 ^ 53` documents as the exact
product does. -/
theorem drop_jsSkip {α : Type} (docs : List α) (page limit : Int) (hp : 1 ≤ page)
    (hl : 1 ≤ limit) (hsize : docs.length < 2 ^ 53) :
    docs.drop (jsMul (jsSub page 1) limit).toNat = docs.drop ((page - 1) * limit).toNat := by
  have hbig : ∀ m : Int, 2 ^ 53 ≤ m → docs.drop m.toNat = [] := by
    intro m hm
    apply List.drop_eq_nil_of_le
    have : (2 : Int) ^ 53 = ((2 ^ 53 : Nat) : Int) := by norm_num
    omega
  have hmul : ∀ a : Int, 2 ^ 53 ≤ a → (2 : Int) ^ 53 ≤ a * limit := by
    intro a ha
    have h0 : (0 : Int) ≤ a := le_trans (by norm_num) ha
    calc (2 : Int) ^ 53 ≤ a := ha
      _ = a * 1 := (mul_one a).symm
      _ ≤ a * limit := Int.mul_le_mul_of_nonneg_left hl h0
  unfold jsMul jsSub
  by_cases h1 : (page - 1).natAbs < 2 ^ 53
  · rw [roundDouble_of_lt _ h1]
    by_cases h2 : ((page - 1) * limit).natAbs < 2 ^ 53
    · rw [roundDouble_of_lt _ h2]
    · have h3 : (2 : Int) ^ 53 ≤ (page - 1) * limit := by
        have : 0 ≤ (page - 1) * limit := Int.mul_nonneg (by omega) (by omega)
        omega
      rw [hbig _ h3, hbig _ (roundDouble_large _ h3)]
  · have h3 : (2 : Int) ^ 53 ≤ page - 1 := by omega
    rw [hbig _ (hmul _ h3), hbig _ (roundDouble_large _ (hmul _ (roundDouble_large _ h3)))]

/-- C1. `getAllUsers` uses page 1 when the page is absent and limit 10 when the
limit is absent, whether the options, the `paginate` object or only the field
is missing; with no options it fetches the window of skip 0 and limit 10. -/
theorem getAllUsers_defaults (s : Store) (p l : Option Int) :
    getAllUsers.page none = 1 ∧ getAllUsers.limit none = 10 ∧
    getAllUsers.page (some ⟨none⟩) = 1 ∧ getAllUsers.limit (some ⟨none⟩) = 10 ∧
    getAllUsers.page (some ⟨some ⟨none, l⟩⟩) = 1 ∧
    getAllUsers.limit (some ⟨some ⟨p, none⟩⟩) = 10 ∧
    getAllUsers.skip none = 0 ∧ getAllUsers.skip (some ⟨some ⟨none, l⟩⟩) = 0 ∧
    getAllUsers s none =
      (findSkipLimit s.users 0 10).map
        (fun users => { data := users, meta := { totalCount := countDocuments s.users } }) ∧
    getAllUsers s none =
      .ok { data := s.users.take 10, meta := { totalCount := countDocuments s.users } } ∧
    getAllUsers s (some ⟨none⟩) = getAllUsers s none ∧
    getAllUsers s (some ⟨some ⟨none, none⟩⟩) = getAllUsers s none := by
  have hskip : getAllUsers.skip none = 0 := by decide
  have hlimit : getAllUsers.limit none = 10 := rfl
  have hskip1 : getAllUsers.skip (some ⟨some ⟨none, l⟩⟩) = 0 := by
    show jsMul (jsSub 1 1) _ = 0
    have h0 : jsSub 1 1 = 0 := by decide
    unfold jsMul
    rw [h0, zero_mul]
    decide
  refine ⟨rfl, rfl, rfl, rfl, rfl, rfl, hskip, hskip1, ?_, ?_, rfl, rfl⟩
  · unfold getAllUsers
    rw [hskip, hlimit]
    rfl
  · unfold getAllUsers
    rw [hskip, hlimit]
    rfl

/-- C2. For `page ≥ 1` and `limit ≥ 1`, `getAllUsers` returns the users after
the first `(page - 1) * limit`, at most `limit` of them, together with the
number of all users, which does not depend on the page or the limit.  The
collection holds fewer than `2 ^ 53` documents, so that its size and the
skipped prefix are exact JavaScript numbers. -/
theorem getAllUsers_window (s : Store) (page limit : Int) (hp : 1 ≤ page) (hl : 1 ≤ limit)
    (hsize : s.users.length < 2 ^ 53) :
    getAllUsers s (some ⟨some ⟨some page, some limit⟩⟩) =
      .ok { data := (s.users.drop ((page - 1) * limit).toNat).take limit.toNat,
            meta := { totalCount := s.users.length } } ∧
    ((s.users.drop ((page - 1) * limit).toNat).take limit.toNat).length ≤ limit.toNat := by
  have hpage : getAllUsers.page (some ⟨some ⟨some page, some limit⟩⟩) = page := by
    show jsOr (some page) 1 = page
    rw [jsOr_some, if_neg (by omega)]
  have hlimit : getAllUsers.limit (some ⟨some ⟨some page, some limit⟩⟩) = limit := by
    show jsOr (some limit) 10 = limit
    rw [jsOr_some, if_neg (by omega)]
  have hskip0 : 0 ≤ getAllUsers.skip (some ⟨some ⟨some page, some limit⟩⟩) := by
    unfold getAllUsers.skip
    rw [hpage, hlimit]
    exact roundDouble_nonneg _ (Int.mul_nonneg (jsSub_one_nonneg page hp) (by omega))
  have hskip : s.users.drop (getAllUsers.skip (some ⟨some ⟨some page, some limit⟩⟩)).toNat =
      s.users.drop ((page - 1) * limit).toNat := by
    unfold getAllUsers.skip
    rw [hpage, hlimit]
    exact drop_jsSkip s.users page limit hp hl hsize
  have hcount : countDocuments s.users = s.users.length := by
    unfold countDocuments
    exact roundDouble_of_lt _ (by simpa using hsize)
  refine ⟨?_, ?_⟩
  · have hl0 : ¬ limit = 0 := by omega
    have hl1 : ¬ limit < 0 := by omega
    unfold getAllUsers findSkipLimit
    simp only [hlimit, hskip, hcount, if_neg (not_lt.mpr hskip0), if_neg hl0, if_neg hl1]
    rfl
  · exact (List.length_take_le _ _)

theorem getAllUsers_window_witness :
    (1 : Int) ≤ 2 ∧ (1 : Int) ≤ 5 ∧ sevenUsers.users.length < 2 ^ 53 ∧
    getAllUsers sevenUsers (some ⟨some ⟨some 2, some 5⟩⟩) =
      .ok { data := (sevenUsers.users.drop ((2 - 1) * 5 : Int).toNat).take (5 : Int).toNat,
            meta := { totalCount := (sevenUsers.users.length : Int) } } ∧
    (sevenUsers.users.drop ((2 - 1) * 5 : Int).toNat).take (5 : Int).toNat =
      [User.new (.ofNat 5) sampleInput, User.new (.ofNat 6) sampleInputFull] :=
  ⟨by decide, by decide, by decide,
    (getAllUsers_window sevenUsers 2 5 (by decide) (by decide) (by decide)).1, by decide⟩

/-- C10 as stated fails: a negative page is used as supplied, the skip computed
from it is negative and the store rejects the fetch; a negative limit is
passed on as supplied. -/
theorem getAllUsers_not_clamped :
    getAllUsers.page (some ⟨some ⟨some (-1), some 5⟩⟩) = -1 ∧
    getAllUsers.skip (some ⟨some ⟨some (-1), some 5⟩⟩) = -10 ∧
    getAllUsers Store.empty (some ⟨some ⟨some (-1), some 5⟩⟩) = .error .negativeSkip ∧
    getAllUsers.limit (some ⟨some ⟨some 1, some (-5)⟩⟩) = -5 := by
  refine ⟨by decide, by decide, rfl, by decide⟩

/-- C10, amended. A supplied page or limit of zero is replaced by the default
(1, 10) and any other value is used as supplied; so for a page and a limit that
are not negative the page and the limit used are at least 1 and the skip passed
to the store is not negative. -/
theorem getAllUsers_bounds (page limit : Int) (hp : 0 ≤ page) (hl : 0 ≤ limit) :
    getAllUsers.page (some ⟨some ⟨some page, some limit⟩⟩) = (if page = 0 then 1 else page) ∧
    getAllUsers.limit (some ⟨some ⟨some page, some limit⟩⟩) = (if limit = 0 then 10 else limit) ∧
    1 ≤ getAllUsers.page (some ⟨some ⟨some page, some limit⟩⟩) ∧
    1 ≤ getAllUsers.limit (some ⟨some ⟨some page, some limit⟩⟩) ∧
    0 ≤ getAllUsers.skip (some ⟨some ⟨some page, some limit⟩⟩) := by
  have hpage : getAllUsers.page (some ⟨some ⟨some page, some limit⟩⟩) =
      (if page = 0 then 1 else page) := rfl
  have hlimit : getAllUsers.limit (some ⟨some ⟨some page, some limit⟩⟩) =
      (if limit = 0 then 10 else limit) := rfl
  have h1 : 1 ≤ getAllUsers.page (some ⟨some ⟨some page, some limit⟩⟩) := by
    rw [hpage]; split <;> omega
  have h2 : 1 ≤ getAllUsers.limit (some ⟨some ⟨some page, some limit⟩⟩) := by
    rw [hlimit]; split <;> omega
  refine ⟨hpage, hlimit, h1, h2, ?_⟩
  unfold getAllUsers.skip
  exact roundDouble_nonneg _ (Int.mul_nonneg (jsSub_one_nonneg _ h1) (by omega))

theorem getAllUsers_bounds_witness :
    (0 : Int) ≤ 0 ∧ (0 : Int) ≤ 7 ∧
    1 ≤ getAllUsers.page (some ⟨some ⟨some 0, some 7⟩⟩) ∧
    0 ≤ getAllUsers.skip (some ⟨some ⟨some 0, some 7⟩⟩) :=
  ⟨by decide, by decide, (getAllUsers_bounds 0 7 (by decide) (by decide)).2.2.1,
    (getAllUsers_bounds 0 7 (by decide) (by decide)).2.2.2.2⟩

/-! ## Lookup, removal and update by `_id` -/

theorem findById_isSome_iff (docs : List User) (id : ObjectId) :
    (User.findById docs id).isSome = true ↔ ∃ u ∈ docs, u._id = id := by
  unfold User.findById
  rw [List.find?_isSome]
  simp

theorem findById_eq_none_iff (docs : List User) (id : ObjectId) :
    User.findById docs id = none ↔ ¬ ∃ u ∈ docs, u._id = id := by
  unfold User.findById
  rw [List.find?_eq_none]
  simp

theorem findById_some_id (docs : List User) (id : ObjectId) (u : User)
    (h : User.findById docs id = some u) : u._id = id ∧ u ∈ docs := by
  unfold User.findById at h
  have h1 := List.find?_some h
  have h2 := List.mem_of_find?_eq_some h
  exact ⟨by simpa using h1, h2⟩

theorem findById_cons (a : User) (rest : List User) (id : ObjectId) :
    User.findById (a :: rest) id = if a._id = id then some a else User.findById rest id := by
  unfold User.findById
  rw [List.find?_cons]
  by_cases h : a._id = id
  · simp [h]
  · have hb : (a._id == id) = false := by simp [h]
    rw [hb, if_neg h]

theorem eraseP_id_cons (a : User) (rest : List User) (id : ObjectId) :
    (a :: rest).eraseP (fun u => u._id == id) =
      if a._id = id then rest else a :: rest.eraseP fun u => u._id == id := by
  rw [List.eraseP_cons]
  by_cases h : a._id = id
  · simp [h]
  · have hb : (a._id == id) = false := by simp [h]
    rw [hb, if_neg h]
    rfl

theorem updateFirst_cons (a : User) (rest : List User) (id : ObjectId) (input : UserInput) :
    User.updateFirst (a :: rest) id input =
      if a._id = id then a.applyUpdate input :: rest else a :: User.updateFirst rest id input := by
  rw [User.updateFirst]
  by_cases h : a._id = id
  · simp [h]
  · simp [h]

theorem findById_eraseP_self (docs : List User) (id : ObjectId)
    (hnd : (docs.map fun u => u._id).Nodup) :
    User.findById (docs.eraseP fun u => u._id == id) id = none := by
  induction docs with
  | nil => rfl
  | cons a rest ih =>
    rw [List.map_cons, List.nodup_cons] at hnd
    rw [eraseP_id_cons]
    by_cases ha : a._id = id
    · rw [if_pos ha, findById_eq_none_iff]
      rintro ⟨u, hu, hid⟩
      exact hnd.1 (List.mem_map.mpr ⟨u, hu, by rw [hid, ha]⟩)
    · rw [if_neg ha, findById_cons, if_neg ha]
      exact ih hnd.2

theorem findById_eraseP_ne (docs : List User) (id id' : ObjectId) (hne : id' ≠ id) :
    User.findById (docs.eraseP fun u => u._id == id) id' = User.findById docs id' := by
  induction docs with
  | nil => rfl
  | cons a rest ih =>
    rw [eraseP_id_cons]
    by_cases ha : a._id = id
    · have hq : ¬ a._id = id' := fun h => hne (h.symm.trans ha)
      rw [if_pos ha, findById_cons a rest, if_neg hq]
    · rw [if_neg ha, findById_cons, findById_cons, ih]

theorem applyUpdate_id (u : User) (input : UserInput) : (u.applyUpdate input)._id = u._id := rfl

theorem map_id_updateFirst (docs : List User) (id : ObjectId) (input : UserInput) :
    (User.updateFirst docs id input).map (fun u => u._id) = docs.map fun u => u._id := by
  induction docs with
  | nil => rfl
  | cons a rest ih =>
    rw [updateFirst_cons]
    split
    · simp [applyUpdate_id]
    · simp [ih]

theorem findById_updateFirst_self (docs : List User) (id : ObjectId) (input : UserInput) :
    User.findById (User.updateFirst docs id input) id =
      (User.findById docs id).map fun u => u.applyUpdate input := by
  induction docs with
  | nil => rfl
  | cons a rest ih =>
    rw [updateFirst_cons]
    by_cases hp : a._id = id
    · rw [if_pos hp, findById_cons, findById_cons, applyUpdate_id, if_pos hp, if_pos hp]
      rfl
    · rw [if_neg hp, findById_cons, findById_cons, if_neg hp, if_neg hp]
      exact ih

theorem findById_updateFirst_ne (docs : List User) (id id' : ObjectId) (input : UserInput)
    (hne : id' ≠ id) :
    User.findById (User.updateFirst docs id input) id' = User.findById docs id' := by
  induction docs with
  | nil => rfl
  | cons a rest ih =>
    rw [updateFirst_cons]
    by_cases hp : a._id = id
    · have hq : ¬ a._id = id' := fun h => hne (h.symm.trans hp)
      rw [if_pos hp, findById_cons, findById_cons, applyUpdate_id, if_neg hq, if_neg hq]
    · rw [if_neg hp, findById_cons, findById_cons, ih]

theorem updateFirst_of_not_mem (docs : List User) (id : ObjectId) (input : UserInput)
    (h : ¬ ∃ u ∈ docs, u._id = id) : User.updateFirst docs id input = docs := by
  induction docs with
  | nil => rfl
  | cons a rest ih =>
    have hp : ¬ a._id = id := fun ha => h ⟨a, List.mem_cons_self _ _, ha⟩
    rw [updateFirst_cons, if_neg hp, ih]
    rintro ⟨u, hu, hid⟩
    exact h ⟨u, List.mem_cons_of_mem _ hu, hid⟩

theorem findById_append_fresh (docs : List User) (doc : User)
    (h : ¬ ∃ u ∈ docs, u._id = doc._id) : User.findById (docs ++ [doc]) doc._id = some doc := by
  unfold User.findById
  rw [List.find?_append]
  have hn : List.find? (fun u => u._id == doc._id) docs = none := by
    have := (findById_eq_none_iff docs doc._id).2 h
    exact this
  rw [hn]
  simp

/-! ## Identifiers and their strings -/

theorem hexDigitVal_digitChar (k : Nat) (h : k < 16) : hexDigitVal (Nat.digitChar k) = some k := by
  interval_cases k <;> rfl

theorem hexVal_snoc (cs : List Char) (c : Char) :
    hexVal (cs ++ [c]) = (hexVal cs).bind fun a => (hexDigitVal c).map fun d => 16 * a + d := by
  unfold hexVal
  rw [List.foldl_append]
  rfl

theorem hexVal_hexDigits (w v : Nat) : hexVal (hexDigits w v) = some (v % 16 ^ w) := by
  induction w generalizing v with
  | zero => simp [hexDigits, hexVal, Nat.mod_one]
  | succ w ih =>
    rw [hexDigits, hexVal_snoc, ih, hexDigitVal_digitChar _ (Nat.mod_lt _ (by decide))]
    simp only [Option.some_bind, Option.map_some']
    congr 1
    rw [pow_succ', Nat.mod_mul]
    omega

theorem length_hexDigits (w v : Nat) : (hexDigits w v).length = w := by
  induction w generalizing v with
  | zero => rfl
  | succ w ih => rw [hexDigits, List.length_append, ih]; rfl

theorem toHexString_length (oid : ObjectId) : oid.toHexString.length = 24 := by
  unfold ObjectId.toHexString
  show (hexDigits 24 oid.value).length = 24
  exact length_hexDigits 24 oid.value

theorem toHexString_data (oid : ObjectId) : oid.toHexString.data = hexDigits 24 oid.value := rfl

theorem ofNat_value (oid : ObjectId) : ObjectId.ofNat oid.value = oid := by
  cases oid with
  | mk v h =>
    unfold ObjectId.ofNat
    simp only [Nat.mod_eq_of_lt h]

/-- The string of an identifier casts back to the identifier. -/
theorem castObjectId_toHexString (oid : ObjectId) : castObjectId oid.toHexString = .ok oid := by
  unfold castObjectId
  rw [if_pos (toHexString_length oid), toHexString_data, hexVal_hexDigits,
    Nat.mod_eq_of_lt oid.isLt]
  simp only
  rw [ofNat_value]

theorem castObjectId_error (id : String) (e : StoreError) (h : castObjectId id = .error e) :
    e = .castError := by
  unfold castObjectId at h
  split at h
  · split at h
    · cases h
    · cases h; rfl
  · cases h; rfl

theorem castObjectId_examples :
    (ObjectId.ofNat 5).toHexString = "000000000000000000000005" ∧
    (ObjectId.ofNat 255).toHexString = "0000000000000000000000ff" ∧
    (ObjectId.ofNat 18446744073709551615).toHexString = "00000000ffffffffffffffff" ∧
    castObjectId "00000000000000000000000a" = .ok (ObjectId.ofNat 10) ∧
    castObjectId "00000000000000000000000A" = .ok (ObjectId.ofNat 10) ∧
    castObjectId "abc" = .error .castError ∧
    castObjectId "" = .error .castError ∧
    castObjectId "00000000000000000000000g" = .error .castError ∧
    castObjectId "0000000000000000000000005" = .error .castError := by
  refine ⟨?_, ?_, ?_, ?_, ?_, ?_, ?_, ?_, ?_⟩ <;> decide

/-- The id string of a user casts to its `_id`. -/
theorem castObjectId_id (u : User) : castObjectId u.id = .ok u._id :=
  castObjectId_toHexString u._id

/-- A user whose id string is `id` has the `_id` that `id` casts to. -/
theorem id_of_cast (u : User) (id : String) (oid : ObjectId) (hc : castObjectId id = .ok oid)
    (hid : u.id = id) : u._id = oid := by
  have h := castObjectId_toHexString u._id
  unfold User.id at hid
  rw [hid, hc] at h
  cases h
  rfl

/-! ## What the resolvers do once the id has cast -/

theorem getUser_of_cast (s : Store) (id : String) (oid : ObjectId)
    (hc : castObjectId id = .ok oid) : getUser s id = .ok (User.findById s.users oid) := by
  unfold getUser
  rw [hc]
  rfl

theorem getUser_of_error (s : Store) (id : String) (e : StoreError)
    (hc : castObjectId id = .error e) : getUser s id = .error e := by
  unfold getUser
  rw [hc]
  rfl

theorem deleteUser_of_cast (s : Store) (id : String) (oid : ObjectId)
    (hc : castObjectId id = .ok oid) :
    deleteUser s id =
      .ok ((User.findById s.users oid).isSome,
           { s with users := s.users.eraseP fun u => u._id == oid }) := by
  unfold deleteUser
  rw [hc]
  rfl

theorem deleteUser_of_error (s : Store) (id : String) (e : StoreError)
    (hc : castObjectId id = .error e) : deleteUser s id = .error e := by
  unfold deleteUser
  rw [hc]
  rfl

theorem updateUser_of_cast (s : Store) (id : String) (oid : ObjectId) (input : UserInput)
    (hc : castObjectId id = .ok oid) :
    updateUser s id input =
      .ok ((User.findById s.users oid).map (fun u => u.applyUpdate input),
           { s with users := User.updateFirst s.users oid input }) := by
  unfold updateUser
  rw [hc]
  rfl

theorem updateUser_of_error (s : Store) (id : String) (e : StoreError) (input : UserInput)
    (hc : castObjectId id = .error e) : updateUser s id input = .error e := by
  unfold updateUser
  rw [hc]
  rfl

theorem getPostsByUser_of_cast (s : Store) (userId : String) (oid : ObjectId)
    (hc : castObjectId userId = .ok oid) :
    getPostsByUser s userId = .ok (Post.findByUserSorted s.posts oid) := by
  unfold getPostsByUser
  rw [hc]
  rfl

theorem getPostsByUser_of_error (s : Store) (userId : String) (e : StoreError)
    (hc : castObjectId userId = .error e) : getPostsByUser s userId = .error e := by
  unfold getPostsByUser
  rw [hc]
  rfl

/-! ## Well-formed stores -/

theorem wf_empty : Store.empty.WF := by decide

theorem ofNat_value_le (n : Nat) : (ObjectId.ofNat n).value ≤ n := Nat.mod_le _ _

theorem fresh_user_id (s : Store) (h : s.WF) (hgen : s.nextId < 16 ^ 24) :
    ¬ ∃ u ∈ s.users, u._id = ObjectId.ofNat s.nextId := by
  rintro ⟨u, hu, hid⟩
  have h1 := h.2.2.1 u hu
  rw [hid] at h1
  have h2 : (ObjectId.ofNat s.nextId).value = s.nextId := Nat.mod_eq_of_lt hgen
  omega

theorem fresh_post_id (s : Store) (h : s.WF) (hgen : s.nextId < 16 ^ 24) :
    ¬ ∃ p ∈ s.posts, p._id = ObjectId.ofNat s.nextId := by
  rintro ⟨p, hp, hid⟩
  have h1 := h.2.2.2 p hp
  rw [hid] at h1
  have h2 : (ObjectId.ofNat s.nextId).value = s.nextId := Nat.mod_eq_of_lt hgen
  omega

theorem user_save_fresh (docs : List User) (doc : User) (h : ¬ ∃ u ∈ docs, u._id = doc._id) :
    User.save docs doc = .ok (docs ++ [doc]) := by
  unfold User.save
  have hany : (docs.any fun u => u._id == doc._id) = false := by
    rw [List.any_eq_false]
    intro u hu
    simp only [beq_iff_eq]
    exact fun hid => h ⟨u, hu, hid⟩
  rw [hany]
  rfl

theorem post_save_fresh (docs : List Post) (doc : Post) (h : ¬ ∃ p ∈ docs, p._id = doc._id) :
    Post.save docs doc = .ok (docs ++ [doc]) := by
  unfold Post.save
  have hany : (docs.any fun p => p._id == doc._id) = false := by
    rw [List.any_eq_false]
    intro p hp
    simp only [beq_iff_eq]
    exact fun hid => h ⟨p, hp, hid⟩
  rw [hany]
  rfl

theorem user_save_inv (docs docs' : List User) (doc : User) (h : User.save docs doc = .ok docs') :
    docs' = docs ++ [doc] ∧ ¬ ∃ u ∈ docs, u._id = doc._id := by
  unfold User.save at h
  split at h
  · cases h
  · rename_i hany
    cases h
    refine ⟨rfl, ?_⟩
    rintro ⟨u, hu, hid⟩
    apply hany
    rw [List.any_eq_true]
    exact ⟨u, hu, by simpa using hid⟩

theorem post_save_inv (docs docs' : List Post) (doc : Post) (h : Post.save docs doc = .ok docs') :
    docs' = docs ++ [doc] ∧ ¬ ∃ p ∈ docs, p._id = doc._id := by
  unfold Post.save at h
  split at h
  · cases h
  · rename_i hany
    cases h
    refine ⟨rfl, ?_⟩
    rintro ⟨p, hp, hid⟩
    apply hany
    rw [List.any_eq_true]
    exact ⟨p, hp, by simpa using hid⟩

/-- On a well-formed store whose generator has identifiers left `createUser`
succeeds: the generated `_id` is free. -/
theorem createUser_ok (s : Store) (input : UserInput) (h : s.WF) (hgen : s.nextId < 16 ^ 24) :
    createUser s input =
      .ok (User.new (ObjectId.ofNat s.nextId) input,
           { s with users := s.users ++ [User.new (ObjectId.ofNat s.nextId) input],
                    nextId := s.nextId + 1 }) := by
  unfold createUser
  simp only
  rw [user_save_fresh s.users (User.new (ObjectId.ofNat s.nextId) input)
    (fresh_user_id s h hgen)]
  rfl

/-- What a successful `createUser` returned and did. -/
theorem createUser_inv (s s' : Store) (input : UserInput) (u : User)
    (h : createUser s input = .ok (u, s')) :
    u = User.new (ObjectId.ofNat s.nextId) input ∧
    s' = { s with users := s.users ++ [u], nextId := s.nextId + 1 } ∧
    ¬ ∃ v ∈ s.users, v._id = u._id := by
  unfold createUser at h
  simp only at h
  cases hsave : User.save s.users (User.new (ObjectId.ofNat s.nextId) input) with
  | error e =>
    rw [hsave] at h
    cases h
  | ok docs =>
    rw [hsave] at h
    obtain ⟨hd, hfresh⟩ := user_save_inv _ _ _ hsave
    have h2 : (Except.ok (User.new (ObjectId.ofNat s.nextId) input,
        ({ s with users := docs, nextId := s.nextId + 1 } : Store)) :
        Except StoreError (User × Store)) = .ok (u, s') := h
    cases h2
    subst hd
    exact ⟨rfl, rfl, hfresh⟩

/-- On a well-formed store whose generator has identifiers left `createPost`
with a `userId` that casts succeeds. -/
theorem createPost_ok (s : Store) (input : PostInput) (now : Int) (uid : ObjectId)
    (hc : castObjectId input.userId = .ok uid) (h : s.WF) (hgen : s.nextId < 16 ^ 24) :
    createPost s input now =
      .ok (Post.new (ObjectId.ofNat s.nextId) uid input now,
           { s with posts := s.posts ++ [Post.new (ObjectId.ofNat s.nextId) uid input now],
                    nextId := s.nextId + 1 }) := by
  unfold createPost
  rw [hc]
  simp only
  rw [post_save_fresh s.posts (Post.new (ObjectId.ofNat s.nextId) uid input now)
    (fresh_post_id s h hgen)]
  rfl

/-- What a successful `createPost` returned and did. -/
theorem createPost_inv (s s' : Store) (input : PostInput) (now : Int) (p : Post)
    (h : createPost s input now = .ok (p, s')) :
    ∃ uid, castObjectId input.userId = .ok uid ∧
      p = Post.new (ObjectId.ofNat s.nextId) uid input now ∧
      s' = { s with posts := s.posts ++ [p], nextId := s.nextId + 1 } ∧
      ¬ ∃ q ∈ s.posts, q._id = p._id := by
  unfold createPost at h
  cases hc : castObjectId input.userId with
  | error e =>
    rw [hc] at h
    cases h
  | ok uid =>
    rw [hc] at h
    simp only at h
    cases hsave : Post.save s.posts (Post.new (ObjectId.ofNat s.nextId) uid input now) with
    | error e =>
      rw [hsave] at h
      cases h
    | ok docs =>
      rw [hsave] at h
      obtain ⟨hd, hfresh⟩ := post_save_inv _ _ _ hsave
      have h2 : (Except.ok (Post.new (ObjectId.ofNat s.nextId) uid input now,
          ({ s with posts := docs, nextId := s.nextId + 1 } : Store)) :
          Except StoreError (Post × Store)) = .ok (p, s') := h
      cases h2
      subst hd
      exact ⟨uid, rfl, rfl, rfl, hfresh⟩

theorem wf_add_user (s : Store) (u : User) (h : s.WF) (hfresh : ¬ ∃ v ∈ s.users, v._id = u._id)
    (hle : u._id.value ≤ s.nextId) :
    Store.WF { s with users := s.users ++ [u], nextId := s.nextId + 1 } := by
  obtain ⟨h1, h2, h3, h4⟩ := h
  refine ⟨?_, h2, ?_, ?_⟩
  · show ((s.users ++ [u]).map fun u => u._id).Nodup
    rw [List.map_append, List.nodup_append]
    refine ⟨h1, by simp, ?_⟩
    intro a ha hb
    simp only [List.map_cons, List.map_nil, List.mem_singleton] at hb
    obtain ⟨v, hv, hid⟩ := List.mem_map.mp ha
    exact hfresh ⟨v, hv, hid.trans hb⟩
  · intro v hv
    show v._id.value < s.nextId + 1
    rcases List.mem_append.mp hv with hv | hv
    · exact Nat.lt_succ_of_lt (h3 v hv)
    · rw [List.mem_singleton.mp hv]
      exact Nat.lt_succ_of_le hle
  · intro p hp
    exact Nat.lt_succ_of_lt (h4 p hp)

theorem wf_add_post (s : Store) (p : Post) (h : s.WF) (hfresh : ¬ ∃ q ∈ s.posts, q._id = p._id)
    (hle : p._id.value ≤ s.nextId) :
    Store.WF { s with posts := s.posts ++ [p], nextId := s.nextId + 1 } := by
  obtain ⟨h1, h2, h3, h4⟩ := h
  refine ⟨h1, ?_, ?_, ?_⟩
  · show ((s.posts ++ [p]).map fun p => p._id).Nodup
    rw [List.map_append, List.nodup_append]
    refine ⟨h2, by simp, ?_⟩
    intro a ha hb
    simp only [List.map_cons, List.map_nil, List.mem_singleton] at hb
    obtain ⟨q, hq, hid⟩ := List.mem_map.mp ha
    exact hfresh ⟨q, hq, hid.trans hb⟩
  · intro u hu
    exact Nat.lt_succ_of_lt (h3 u hu)
  · intro q hq
    show q._id.value < s.nextId + 1
    rcases List.mem_append.mp hq with hq | hq
    · exact Nat.lt_succ_of_lt (h4 q hq)
    · rw [List.mem_singleton.mp hq]
      exact Nat.lt_succ_of_le hle

theorem wf_erase (s : Store) (oid : ObjectId) (h : s.WF) :
    Store.WF { s with users := s.users.eraseP fun u => u._id == oid } := by
  obtain ⟨h1, h2, h3, h4⟩ := h
  have hsub : (s.users.eraseP fun u => u._id == oid).Sublist s.users := List.eraseP_sublist _
  refine ⟨?_, h2, ?_, h4⟩
  · exact List.Nodup.sublist (hsub.map _) h1
  · intro u hu
    exact h3 u (hsub.subset hu)

theorem wf_updateFirst (s : Store) (oid : ObjectId) (input : UserInput) (h : s.WF) :
    Store.WF { s with users := User.updateFirst s.users oid input } := by
  obtain ⟨h1, h2, h3, h4⟩ := h
  refine ⟨?_, h2, ?_, h4⟩
  · show ((User.updateFirst s.users oid input).map fun u => u._id).Nodup
    rw [map_id_updateFirst]
    exact h1
  · intro u hu
    have hmem : u._id ∈ (User.updateFirst s.users oid input).map fun u => u._id :=
      List.mem_map.mpr ⟨u, hu, rfl⟩
    rw [map_id_updateFirst] at hmem
    obtain ⟨v, hv, hid⟩ := List.mem_map.mp hmem
    have := h3 v hv
    rw [hid] at this
    exact this

theorem wf_createUser (s s' : Store) (input : UserInput) (u : User) (h : s.WF)
    (hok : createUser s input = .ok (u, s')) : s'.WF := by
  obtain ⟨hu, hs, hfresh⟩ := createUser_inv s s' input u hok
  rw [hs]
  refine wf_add_user s u h hfresh ?_
  rw [hu]
  exact ofNat_value_le s.nextId

theorem wf_createPost (s s' : Store) (input : PostInput) (now : Int) (p : Post) (h : s.WF)
    (hok : createPost s input now = .ok (p, s')) : s'.WF := by
  obtain ⟨uid, _, hp, hs, hfresh⟩ := createPost_inv s s' input now p hok
  rw [hs]
  refine wf_add_post s p h hfresh ?_
  rw [hp]
  exact ofNat_value_le s.nextId

theorem wf_deleteUser (s s' : Store) (id : String) (b : Bool) (h : s.WF)
    (hok : deleteUser s id = .ok (b, s')) : s'.WF := by
  cases hc : castObjectId id with
  | error e =>
    rw [deleteUser_of_error s id e hc] at hok
    cases hok
  | ok oid =>
    rw [deleteUser_of_cast s id oid hc] at hok
    cases hok
    exact wf_erase s oid h

theorem wf_updateUser (s s' : Store) (id : String) (input : UserInput) (r : Option User)
    (h : s.WF) (hok : updateUser s id input = .ok (r, s')) : s'.WF := by
  cases hc : castObjectId id with
  | error e =>
    rw [updateUser_of_error s id e input hc] at hok
    cases hok
  | ok oid =>
    rw [updateUser_of_cast s id oid input hc] at hok
    cases hok
    exact wf_updateFirst s oid input h

/-- Every store the mutations produce from the empty store is well-formed. -/
theorem reachable_wf {s : Store} (h : Reachable s) : s.WF := by
  induction h with
  | empty => exact wf_empty
  | createUser input _ hok ih => exact wf_createUser _ _ input _ ih hok
  | updateUser id input _ hok ih => exact wf_updateUser _ _ id input _ ih hok
  | deleteUser id _ hok ih => exact wf_deleteUser _ _ id _ ih hok
  | createPost input now _ hok ih => exact wf_createPost _ _ input now _ ih hok

/-! ## Users: create, read, update, delete -/

/-- C3 as stated fails: for an id that is not an `ObjectId`, which no user has,
`deleteUser` does not return false: the call is rejected with a `CastError`,
and so is `getUser`. -/
theorem deleteUser_cast_fails :
    deleteUser sampleStore "abc" = .error .castError ∧
    getUser sampleStore "abc" = .error .castError ∧
    (¬ ∃ u ∈ sampleStore.users, u.id = "abc") ∧
    ¬ ∃ s', deleteUser sampleStore "abc" = .ok (false, s') := by
  refine ⟨by decide, by decide, by decide, ?_⟩
  rintro ⟨s', h⟩
  have herr : deleteUser sampleStore "abc" = .error .castError := by decide
  rw [herr] at h
  cases h

/-- C3, amended. For an id that casts to an `ObjectId`, `deleteUser(id)` returns
true exactly when a user with that `_id` existed before the call, and then one
record has been removed; otherwise it returns false and the store is unchanged.
After the call `getUser(id)` returns null.  An id that does not cast is
rejected with a `CastError`. -/
theorem deleteUser_result (s : Store) (id : String) (oid : ObjectId) (h : s.WF)
    (hc : castObjectId id = .ok oid) :
    (∃ b s', deleteUser s id = .ok (b, s') ∧
      (b = true ↔ ∃ u ∈ s.users, u._id = oid) ∧
      (b = false ↔ ¬ ∃ u ∈ s.users, u._id = oid) ∧
      ((∃ u ∈ s.users, u.id = id) → b = true) ∧
      (b = true → s'.users.length + 1 = s.users.length) ∧
      (b = false → s' = s) ∧
      getUser s' id = .ok none) ∧
    (∀ bad e, castObjectId bad = .error e → deleteUser s bad = .error .castError) := by
  have hiff : (User.findById s.users oid).isSome = true ↔ ∃ u ∈ s.users, u._id = oid :=
    findById_isSome_iff s.users oid
  refine ⟨⟨_, _, deleteUser_of_cast s id oid hc, hiff, ?_, ?_, ?_, ?_, ?_⟩, ?_⟩
  · rw [← hiff]
    simp
  · rintro ⟨u, hu, hid⟩
    exact hiff.mpr ⟨u, hu, id_of_cast u id oid hc hid⟩
  · intro ht
    obtain ⟨u, hu, hid⟩ := hiff.mp ht
    show (s.users.eraseP fun u => u._id == oid).length + 1 = s.users.length
    rw [List.length_eraseP_of_mem hu (by simpa using hid)]
    have : 0 < s.users.length := List.length_pos_of_mem hu
    omega
  · intro hf
    have hno : ¬ ∃ u ∈ s.users, u._id = oid := by
      rw [← hiff, hf]
      simp
    show ({ s with users := s.users.eraseP fun u => u._id == oid } : Store) = s
    rw [List.eraseP_of_forall_not]
    intro u hu
    simp only [beq_iff_eq]
    exact fun hid => hno ⟨u, hu, hid⟩
  · rw [getUser_of_cast _ id oid hc]
    exact congrArg Except.ok (findById_eraseP_self s.users oid h.1)
  · intro bad e he
    rw [deleteUser_of_error s bad e he, castObjectId_error bad e he]

theorem deleteUser_result_witness :
    sampleStore.WF ∧
    castObjectId "000000000000000000000000" = .ok (ObjectId.ofNat 0) ∧
    deleteUser sampleStore "000000000000000000000000" =
      .ok (true, { sampleStore with users := [User.new (.ofNat 1) sampleInputFull] }) ∧
    deleteUser sampleStore "000000000000000000000007" = .ok (false, sampleStore) ∧
    ∃ b s', deleteUser sampleStore "000000000000000000000000" = .ok (b, s') ∧
      (b = true ↔ ∃ u ∈ sampleStore.users, u._id = ObjectId.ofNat 0) ∧
      (b = false ↔ ¬ ∃ u ∈ sampleStore.users, u._id = ObjectId.ofNat 0) ∧
      ((∃ u ∈ sampleStore.users, u.id = "000000000000000000000000") → b = true) ∧
      (b = true → s'.users.length + 1 = sampleStore.users.length) ∧
      (b = false → s' = sampleStore) ∧
      getUser s' "000000000000000000000000" = .ok none :=
  ⟨by decide, by decide, by decide, by decide,
    (deleteUser_result sampleStore "000000000000000000000000" (ObjectId.ofNat 0) (by decide)
      (by decide)).1⟩

/-- C9. `deleteUser(id)` leaves the Post collection as it was, so every
`getPostsByUser` answer is the same before and after, the deleted user's
included; every user with another `_id` stays in the store, `getUser` of
another id answers as before, and no user is added.  A call that is rejected
was rejected at the cast of the id, before anything was sent to the store. -/
theorem deleteUser_frame (s : Store) (id : String) :
    (∀ b s', deleteUser s id = .ok (b, s') →
      s'.posts = s.posts ∧
      (∀ userId, getPostsByUser s' userId = getPostsByUser s userId) ∧
      (∀ id', castObjectId id' ≠ castObjectId id → getUser s' id' = getUser s id') ∧
      (∀ u ∈ s.users, castObjectId id ≠ .ok u._id → u ∈ s'.users) ∧
      (∀ u ∈ s'.users, u ∈ s.users)) ∧
    (∀ e, deleteUser s id = .error e → castObjectId id = .error e ∧ e = .castError) ∧
    ((∃ b s', deleteUser s id = .ok (b, s')) ∨ deleteUser s id = .error .castError) := by
  cases hc : castObjectId id with
  | error e =>
    have he := castObjectId_error id e hc
    subst he
    have herr := deleteUser_of_error s id _ hc
    refine ⟨?_, ?_, Or.inr herr⟩
    · intro b s' hok
      rw [herr] at hok
      cases hok
    · intro e he
      rw [herr] at he
      cases he
      exact ⟨rfl, rfl⟩
  | ok oid =>
    have hok := deleteUser_of_cast s id oid hc
    refine ⟨?_, ?_, Or.inl ⟨_, _, hok⟩⟩
    · intro b s' hbs
      rw [hok] at hbs
      cases hbs
      refine ⟨rfl, fun _ => rfl, ?_, ?_, ?_⟩
      · intro id' hne
        cases hc' : castObjectId id' with
        | error e => rw [getUser_of_error _ id' e hc', getUser_of_error _ id' e hc']
        | ok oid' =>
          rw [getUser_of_cast _ id' oid' hc', getUser_of_cast _ id' oid' hc']
          have hne' : oid' ≠ oid := fun heq => hne (by rw [hc', heq])
          exact congrArg Except.ok (findById_eraseP_ne s.users oid oid' hne')
      · intro u hu hne
        show u ∈ s.users.eraseP fun u => u._id == oid
        have hne' : u._id ≠ oid := fun heq => hne (by rw [heq])
        rw [List.mem_eraseP_of_neg (by simpa using hne')]
        exact hu
      · intro u hu
        exact (List.eraseP_sublist s.users).subset hu
    · intro e he
      rw [hok] at he
      cases he

/-- C4. On a well-formed store whose generator has identifiers left,
`createUser(input)` returns a record whose id is a string of twenty-four
hexadecimal digits, hence not empty; `getUser` of the returned id in the
resulting store returns that record, whose id is the returned id and whose
name, email, phone, age, profession and address are the input's (an optional
field the input leaves out or gives as null reads as null). -/
theorem createUser_getUser (s : Store) (input : UserInput) (h : s.WF)
    (hgen : s.nextId < 16 ^ 24) :
    ∃ u s', createUser s input = .ok (u, s') ∧
      u.id.length = 24 ∧ u.id ≠ "" ∧ castObjectId u.id = .ok u._id ∧
      getUser s' u.id = .ok (some u) ∧
      (∀ v, getUser s' u.id = .ok (some v) → v.id = u.id) ∧
      u.name = input.name ∧ u.email = input.email ∧ u.phone = input.phone ∧
      (∀ a, input.age = .value a → u.age = some a) ∧
      (input.age = .absent ∨ input.age = .null → u.age = none) ∧
      (∀ a, input.profession = .value a → u.profession = some a) ∧
      (input.profession = .absent ∨ input.profession = .null → u.profession = none) ∧
      (∀ a, input.address = .value a → u.address = some a) ∧
      (input.address = .absent ∨ input.address = .null → u.address = none) ∧
      (∀ v ∈ s.users, v.id ≠ u.id) ∧
      (∀ id, castObjectId id ≠ .ok u._id → getUser s' id = getUser s id) ∧ s'.WF := by
  have hok := createUser_ok s input h hgen
  have hfresh := fresh_user_id s h hgen
  have hget : getUser
      ({ s with users := s.users ++ [User.new (ObjectId.ofNat s.nextId) input],
                nextId := s.nextId + 1 } : Store)
      (User.new (ObjectId.ofNat s.nextId) input).id =
      .ok (some (User.new (ObjectId.ofNat s.nextId) input)) := by
    rw [getUser_of_cast _ _ _ (castObjectId_id (User.new (ObjectId.ofNat s.nextId) input))]
    exact congrArg Except.ok
      (findById_append_fresh s.users (User.new (ObjectId.ofNat s.nextId) input) hfresh)
  refine ⟨_, _, hok, toHexString_length _, ?_, castObjectId_id _, hget, ?_, rfl, rfl,
    rfl, ?_, ?_, ?_, ?_, ?_, ?_, ?_, ?_, wf_createUser s _ input _ h hok⟩
  · intro hempty
    have hlen := toHexString_length (User.new (ObjectId.ofNat s.nextId) input)._id
    unfold User.id at hempty
    rw [hempty] at hlen
    exact absurd hlen (by decide)
  · intro v hv
    rw [hget] at hv
    cases hv
    rfl
  · intro a ha
    show input.age.toField = some a
    rw [ha]
    rfl
  · intro ha
    show input.age.toField = none
    rcases ha with ha | ha <;> rw [ha] <;> rfl
  · intro a ha
    show input.profession.toField = some a
    rw [ha]
    rfl
  · intro ha
    show input.profession.toField = none
    rcases ha with ha | ha <;> rw [ha] <;> rfl
  · intro a ha
    show input.address.toField = some a
    rw [ha]
    rfl
  · intro ha
    show input.address.toField = none
    rcases ha with ha | ha <;> rw [ha] <;> rfl
  · intro v hv hid
    apply hfresh
    refine ⟨v, hv, ?_⟩
    exact id_of_cast v _ _ (castObjectId_id _) hid
  · intro id hne
    cases hc : castObjectId id with
    | error e => rw [getUser_of_error _ id e hc, getUser_of_error _ id e hc]
    | ok oid =>
      rw [getUser_of_cast _ id oid hc, getUser_of_cast _ id oid hc]
      have hne' : (User.new (ObjectId.ofNat s.nextId) input)._id ≠ oid :=
        fun heq => hne (by rw [hc, heq])
      apply congrArg Except.ok
      show User.findById (s.users ++ [User.new (ObjectId.ofNat s.nextId) input]) oid =
        User.findById s.users oid
      unfold User.findById
      rw [List.find?_append]
      have hb : ((User.new (ObjectId.ofNat s.nextId) input)._id == oid) = false := by
        simp only [beq_eq_false_iff_ne]
        exact hne'
      cases hfind : List.find? (fun u => u._id == oid) s.users with
      | some v => rfl
      | none => simp [List.find?_cons, hb]

theorem createUser_getUser_witness :
    sampleStore.WF ∧ sampleStore.nextId < 16 ^ 24 ∧
    createUser sampleStore sampleInputFull =
      .ok ({ _id := .ofNat 5, name := "B", email := "b@x.com", phone := "2", age := some 30,
             profession := some "dev", address := none },
           { sampleStore with
               users := sampleStore.users ++ [User.new (.ofNat 5) sampleInputFull],
               nextId := 6 }) ∧
    (User.new (.ofNat 5) sampleInputFull).id = "000000000000000000000005" ∧
    ∃ u s', createUser sampleStore sampleInputFull = .ok (u, s') ∧
      u.id.length = 24 ∧ u.id ≠ "" ∧ castObjectId u.id = .ok u._id ∧
      getUser s' u.id = .ok (some u) :=
  ⟨by decide, by decide, by decide, by decide,
    match createUser_getUser sampleStore sampleInputFull (by decide) (by decide) with
    | ⟨u, s', h1, h2, h3, h4, h5, _⟩ => ⟨u, s', h1, h2, h3, h4, h5⟩⟩

/-- C8 as stated fails: for an id that is not an `ObjectId`, which no user has,
`updateUser` does not return null: the call is rejected with a `CastError`. -/
theorem updateUser_cast_fails :
    updateUser sampleStore "abc" sampleInputFull = .error .castError ∧
    (¬ ∃ u ∈ sampleStore.users, u.id = "abc") ∧
    ¬ ∃ s', updateUser sampleStore "abc" sampleInputFull = .ok (none, s') := by
  refine ⟨by decide, by decide, ?_⟩
  rintro ⟨s', h⟩
  have herr : updateUser sampleStore "abc" sampleInputFull = .error .castError := by decide
  rw [herr] at h
  cases h

/-- C8, amended. For an id that casts to an `ObjectId`, `updateUser(id, input)`
on an existing id returns the record after the update: its `_id` and id string
are unchanged, name, email and phone are the input's, and each optional field
is the input's value, or null when the input gives null, or what it was when
the input leaves it out; a following `getUser(id)` returns the same record and
the other users read as before.  On an id that does not exist it returns null
and the store is unchanged.  An id that does not cast is rejected with a
`CastError`. -/
theorem updateUser_result (s : Store) (id : String) (oid : ObjectId) (input : UserInput)
    (hc : castObjectId id = .ok oid) :
    (∃ r s', updateUser s id input = .ok (r, s') ∧
      ((∃ u ∈ s.users, u._id = oid) →
        ∃ old new, getUser s id = .ok (some old) ∧ r = some new ∧
          new._id = oid ∧ new.id = old.id ∧
          new.name = input.name ∧ new.email = input.email ∧ new.phone = input.phone ∧
          (∀ a, input.age = .value a → new.age = some a) ∧
          (input.age = .null → new.age = none) ∧
          (input.age = .absent → new.age = old.age) ∧
          (∀ a, input.profession = .value a → new.profession = some a) ∧
          (input.profession = .null → new.profession = none) ∧
          (input.profession = .absent → new.profession = old.profession) ∧
          (∀ a, input.address = .value a → new.address = some a) ∧
          (input.address = .null → new.address = none) ∧
          (input.address = .absent → new.address = old.address) ∧
          getUser s' id = .ok (some new)) ∧
      ((∃ u ∈ s.users, u.id = id) → ∃ new, r = some new) ∧
      ((¬ ∃ u ∈ s.users, u._id = oid) → r = none ∧ s' = s) ∧
      (∀ id', castObjectId id' ≠ castObjectId id → getUser s' id' = getUser s id') ∧
      s'.posts = s.posts ∧ s'.users.length = s.users.length) ∧
    (∀ bad e, castObjectId bad = .error e → updateUser s bad input = .error .castError) := by
  refine ⟨⟨_, _, updateUser_of_cast s id oid input hc, ?_, ?_, ?_, ?_, rfl, ?_⟩, ?_⟩
  · intro hex
    have hsome := (findById_isSome_iff s.users oid).mpr hex
    obtain ⟨old, hold⟩ := Option.isSome_iff_exists.mp hsome
    have hid := (findById_some_id s.users oid old hold).1
    refine ⟨old, old.applyUpdate input, ?_, ?_, hid, ?_, rfl, rfl, rfl, ?_, ?_, ?_, ?_, ?_, ?_, ?_,
      ?_, ?_, ?_⟩
    · rw [getUser_of_cast s id oid hc, hold]
    · rw [hold]
      rfl
    · rfl
    · intro a ha
      show input.age.applyTo old.age = some a
      rw [ha]
      rfl
    · intro ha
      show input.age.applyTo old.age = none
      rw [ha]
      rfl
    · intro ha
      show input.age.applyTo old.age = old.age
      rw [ha]
      rfl
    · intro a ha
      show input.profession.applyTo old.profession = some a
      rw [ha]
      rfl
    · intro ha
      show input.profession.applyTo old.profession = none
      rw [ha]
      rfl
    · intro ha
      show input.profession.applyTo old.profession = old.profession
      rw [ha]
      rfl
    · intro a ha
      show input.address.applyTo old.address = some a
      rw [ha]
      rfl
    · intro ha
      show input.address.applyTo old.address = none
      rw [ha]
      rfl
    · intro ha
      show input.address.applyTo old.address = old.address
      rw [ha]
      rfl
    · rw [getUser_of_cast _ id oid hc]
      apply congrArg Except.ok
      show User.findById (User.updateFirst s.users oid input) oid = _
      rw [findById_updateFirst_self, hold]
      rfl
  · rintro ⟨u, hu, hid⟩
    have hsome := (findById_isSome_iff s.users oid).mpr ⟨u, hu, id_of_cast u id oid hc hid⟩
    obtain ⟨old, hold⟩ := Option.isSome_iff_exists.mp hsome
    exact ⟨old.applyUpdate input, by rw [hold]; rfl⟩
  · intro hno
    refine ⟨?_, ?_⟩
    · rw [(findById_eq_none_iff s.users oid).mpr hno]
      rfl
    · show ({ s with users := User.updateFirst s.users oid input } : Store) = s
      rw [updateFirst_of_not_mem s.users oid input hno]
  · intro id' hne
    cases hc' : castObjectId id' with
    | error e => rw [getUser_of_error _ id' e hc', getUser_of_error _ id' e hc']
    | ok oid' =>
      rw [getUser_of_cast _ id' oid' hc', getUser_of_cast _ id' oid' hc']
      have hne' : oid' ≠ oid := fun heq => hne (by rw [hc', hc, heq])
      exact congrArg Except.ok (findById_updateFirst_ne s.users oid oid' input hne')
  · have := congrArg List.length (map_id_updateFirst s.users oid input)
    simpa using this
  · intro bad e he
    rw [updateUser_of_error s bad e input he, castObjectId_error bad e he]

theorem updateUser_result_witness :
    castObjectId "000000000000000000000001" = .ok (ObjectId.ofNat 1) ∧
    updateUser sampleStore "000000000000000000000001" sampleInput =
      .ok (some { _id := .ofNat 1, name := "A", email := "a@x.com", phone := "1",
                  age := some 30, profession := some "dev", address := none },
           { sampleStore with
               users := [User.new (.ofNat 0) sampleInput,
                         { _id := .ofNat 1, name := "A", email := "a@x.com", phone := "1",
                           age := some 30, profession := some "dev", address := none }] }) ∧
    updateUser sampleStore "000000000000000000000000" sampleInputFull =
      .ok (some { _id := .ofNat 0, name := "B", email := "b@x.com", phone := "2",
                  age := some 30, profession := some "dev", address := none },
           { sampleStore with
               users := [{ _id := .ofNat 0, name := "B", email := "b@x.com", phone := "2",
                           age := some 30, profession := some "dev", address := none },
                         User.new (.ofNat 1) sampleInputFull] }) ∧
    updateUser sampleStore "000000000000000000000007" sampleInputFull =
      .ok (none, sampleStore) ∧
    ∃ r s', updateUser sampleStore "000000000000000000000001" sampleInput = .ok (r, s') ∧
      ((∃ u ∈ sampleStore.users, u.id = "000000000000000000000001") → ∃ new, r = some new) :=
  ⟨by decide, by decide, by decide, by decide,
    match updateUser_result sampleStore "000000000000000000000001" (ObjectId.ofNat 1)
      sampleInput (by decide) with
    | ⟨⟨r, s', h1, _, h3, _⟩, _⟩ => ⟨r, s', h1, h3⟩⟩

/-! ## Posts of a user -/

theorem findByUserSorted_perm (docs : List Post) (oid : ObjectId) :
    (Post.findByUserSorted docs oid).Perm (docs.filter fun p => p.userId == oid) :=
  List.perm_insertionSort _ _

theorem findByUserSorted_sorted (docs : List Post) (oid : ObjectId) :
    (Post.findByUserSorted docs oid).Pairwise fun a b => b.createdAt ≤ a.createdAt :=
  List.sorted_insertionSort Post.notOlder _

theorem filter_user_eq_nil (docs : List Post) (userId : ObjectId)
    (h : ∀ p ∈ docs, p.userId ≠ userId) : (docs.filter fun p => p.userId == userId) = [] := by
  induction docs with
  | nil => rfl
  | cons a rest ih =>
    have ha : (a.userId == userId) = false := by
      simp only [beq_eq_false_iff_ne]
      exact h a (List.mem_cons_self _ _)
    rw [List.filter_cons, ha]
    exact ih fun p hp => h p (List.mem_cons_of_mem _ hp)

/-- C5 as stated fails: two posts of one user created in the same millisecond
are both returned, and neither is strictly later than the other; and for a
userId that is not an `ObjectId`, which no post has, the result is not the
empty list but a `CastError`. -/
theorem getPostsByUser_not_strict :
    ∃ p1 s1 p2 s2,
      createPost Store.empty ⟨"T", "C", "000000000000000000000009"⟩ 1000 = .ok (p1, s1) ∧
      createPost s1 ⟨"T2", "C2", "000000000000000000000009"⟩ 1000 = .ok (p2, s2) ∧
      getPostsByUser s2 "000000000000000000000009" = .ok [p1, p2] ∧
      ¬ [p1, p2].Chain' (fun a b => b.createdAt < a.createdAt) ∧
      getPostsByUser s2 "abc" = .error .castError ∧
      ∀ p ∈ s2.posts, p.userId.toHexString ≠ "abc" :=
  ⟨{ _id := .ofNat 0, userId := .ofNat 9, title := "T", content := "C", createdAt := 1000 },
    ⟨[], [{ _id := .ofNat 0, userId := .ofNat 9, title := "T", content := "C",
            createdAt := 1000 }], 1⟩,
    { _id := .ofNat 1, userId := .ofNat 9, title := "T2", content := "C2", createdAt := 1000 },
    ⟨[], [{ _id := .ofNat 0, userId := .ofNat 9, title := "T", content := "C",
            createdAt := 1000 },
          { _id := .ofNat 1, userId := .ofNat 9, title := "T2", content := "C2",
            createdAt := 1000 }], 2⟩,
    by decide, by decide, by decide,
    fun hc => absurd (List.chain'_pair.mp hc) (by decide), by decide, by decide⟩

/-- C5, amended. For a userId that casts to an `ObjectId`, the list
`getPostsByUser(userId)` returns is in descending creation-time order in the
weak sense: no post is earlier than a post after it (posts of equal `createdAt`
may stand side by side); when no post has that userId the result is the empty
list.  A userId that does not cast is rejected with a `CastError`. -/
theorem getPostsByUser_descending (s : Store) (userId : String) (oid : ObjectId)
    (hc : castObjectId userId = .ok oid) :
    (∃ posts, getPostsByUser s userId = .ok posts ∧
      posts.Pairwise (fun a b => b.createdAt ≤ a.createdAt) ∧
      posts.Chain' (fun a b => b.createdAt ≤ a.createdAt) ∧
      ((∀ p ∈ s.posts, p.userId ≠ oid) → posts = [])) ∧
    (∀ bad e, castObjectId bad = .error e → getPostsByUser s bad = .error .castError) := by
  refine ⟨⟨_, getPostsByUser_of_cast s userId oid hc, findByUserSorted_sorted s.posts oid,
    List.Pairwise.chain' (findByUserSorted_sorted s.posts oid), ?_⟩, ?_⟩
  · intro h
    unfold Post.findByUserSorted
    rw [filter_user_eq_nil s.posts oid h]
    rfl
  · intro bad e he
    rw [getPostsByUser_of_error s bad e he, castObjectId_error bad e he]

theorem getPostsByUser_descending_witness :
    castObjectId "000000000000000000000000" = .ok (ObjectId.ofNat 0) ∧
    getPostsByUser sampleStore "000000000000000000000000" =
      .ok [{ _id := .ofNat 4, userId := .ofNat 0, title := "T3", content := "C3",
             createdAt := 2000 },
           { _id := .ofNat 2, userId := .ofNat 0, title := "T1", content := "C1",
             createdAt := 1000 }] ∧
    getPostsByUser sampleStore "000000000000000000000008" = .ok [] ∧
    ∃ posts, getPostsByUser sampleStore "000000000000000000000000" = .ok posts ∧
      posts.Pairwise (fun a b => b.createdAt ≤ a.createdAt) ∧
      posts.Chain' (fun a b => b.createdAt ≤ a.createdAt) ∧
      ((∀ p ∈ sampleStore.posts, p.userId ≠ ObjectId.ofNat 0) → posts = []) :=
  ⟨by decide, by decide, by decide,
    (getPostsByUser_descending sampleStore "000000000000000000000000" (ObjectId.ofNat 0)
      (by decide)).1⟩

/-- C6 as stated fails: for a userId that is not an `ObjectId`, which no post
has, `getPostsByUser` does not return the (empty) list of the posts with that
userId: the call is rejected with a `CastError`. -/
theorem getPostsByUser_cast_fails :
    getPostsByUser sampleStore "abc" = .error .castError ∧
    (∀ p ∈ sampleStore.posts, p.userId.toHexString ≠ "abc") ∧
    ¬ ∃ posts, getPostsByUser sampleStore "abc" = .ok posts := by
  refine ⟨by decide, by decide, ?_⟩
  rintro ⟨posts, h⟩
  have herr : getPostsByUser sampleStore "abc" = .error .castError := by decide
  rw [herr] at h
  cases h

/-- C6, amended. For a userId that casts to an `ObjectId`, `getPostsByUser`
returns exactly the posts whose userId is that identifier: a rearrangement of
all of them, each as often as it is stored (once, as `_id` is unique in a
well-formed store), with no bound on their number.  On a well-formed store
without posts that refer to the next user, creating a user and then a post
with the returned id as userId gives a post with that userId and `createdAt`
set to the time of creation, and `getPostsByUser` of the returned id returns
that one post.  A userId that does not cast is rejected with a `CastError`. -/
theorem getPostsByUser_exact (s : Store) (userId : String) (oid : ObjectId) (input : UserInput)
    (title content : String) (now : Int) (hc : castObjectId userId = .ok oid) :
    (∃ posts, getPostsByUser s userId = .ok posts ∧
      posts.Perm (s.posts.filter fun p => p.userId == oid) ∧
      (∀ p, p ∈ posts ↔ p ∈ s.posts ∧ p.userId = oid) ∧
      (∀ p ∈ s.posts, p.userId.toHexString = userId → p ∈ posts) ∧
      posts.length = (s.posts.filter fun p => p.userId == oid).length ∧
      (s.WF → posts.Nodup)) ∧
    (s.WF → s.nextId + 1 < 16 ^ 24 →
      (∀ p ∈ s.posts, p.userId ≠ ObjectId.ofNat s.nextId) →
      ∃ u s1 p s2, createUser s input = .ok (u, s1) ∧
        createPost s1 ⟨title, content, u.id⟩ now = .ok (p, s2) ∧
        p.userId = u._id ∧ p.userId.toHexString = u.id ∧ p.createdAt = now ∧
        p.title = title ∧ p.content = content ∧
        getPostsByUser s2 u.id = .ok [p]) ∧
    (∀ bad e, castObjectId bad = .error e → getPostsByUser s bad = .error .castError) := by
  have hperm := findByUserSorted_perm s.posts oid
  have hmem : ∀ p, p ∈ Post.findByUserSorted s.posts oid ↔ p ∈ s.posts ∧ p.userId = oid := by
    intro p
    rw [hperm.mem_iff, List.mem_filter]
    simp
  refine ⟨⟨_, getPostsByUser_of_cast s userId oid hc, hperm, hmem, ?_, hperm.length_eq, ?_⟩,
    ?_, ?_⟩
  · intro p hp hid
    refine (hmem p).mpr ⟨hp, ?_⟩
    have h1 := castObjectId_toHexString p.userId
    rw [hid, hc] at h1
    cases h1
    rfl
  · intro h
    rw [hperm.nodup_iff]
    exact (List.Nodup.of_map _ h.2.1).filter _
  · intro h hgen hnone
    have hgen0 : s.nextId < 16 ^ 24 := by omega
    have hok := createUser_ok s input h hgen0
    have h1 := wf_createUser s _ input _ h hok
    have hcu : castObjectId
        (({ title := title, content := content,
            userId := (User.new (ObjectId.ofNat s.nextId) input).id } : PostInput).userId) =
        .ok (ObjectId.ofNat s.nextId) :=
      castObjectId_id (User.new (ObjectId.ofNat s.nextId) input)
    have hpost := createPost_ok
      ({ s with users := s.users ++ [User.new (ObjectId.ofNat s.nextId) input],
                nextId := s.nextId + 1 } : Store)
      ⟨title, content, (User.new (ObjectId.ofNat s.nextId) input).id⟩ now
      (ObjectId.ofNat s.nextId) hcu h1 hgen
    refine ⟨_, _, _, _, hok, hpost, rfl, rfl, rfl, rfl, rfl, ?_⟩
    rw [getPostsByUser_of_cast _ _ _
      (castObjectId_id (User.new (ObjectId.ofNat s.nextId) input))]
    apply congrArg Except.ok
    show ((s.posts ++ [Post.new (ObjectId.ofNat (s.nextId + 1)) (ObjectId.ofNat s.nextId)
        ⟨title, content, (User.new (ObjectId.ofNat s.nextId) input).id⟩ now]).filter
      fun p => p.userId == ObjectId.ofNat s.nextId).insertionSort Post.notOlder = _
    rw [List.filter_append, filter_user_eq_nil s.posts (ObjectId.ofNat s.nextId) hnone]
    simp [Post.new]
  · intro bad e he
    rw [getPostsByUser_of_error s bad e he, castObjectId_error bad e he]

theorem getPostsByUser_exact_witness :
    castObjectId "000000000000000000000000" = .ok (ObjectId.ofNat 0) ∧
    sampleStore.WF ∧ sampleStore.nextId + 1 < 16 ^ 24 ∧
    (∀ p ∈ sampleStore.posts, p.userId ≠ ObjectId.ofNat sampleStore.nextId) ∧
    (∃ posts, getPostsByUser sampleStore "000000000000000000000000" = .ok posts ∧
      posts.Perm (sampleStore.posts.filter fun p => p.userId == ObjectId.ofNat 0) ∧
      (∀ p, p ∈ posts ↔ p ∈ sampleStore.posts ∧ p.userId = ObjectId.ofNat 0)) ∧
    (∃ u s1 p s2, createUser sampleStore sampleInput = .ok (u, s1) ∧
      createPost s1 ⟨"T", "C", u.id⟩ 1000 = .ok (p, s2) ∧
      p.userId = u._id ∧ p.userId.toHexString = u.id ∧ p.createdAt = 1000 ∧
      p.title = "T" ∧ p.content = "C" ∧
      getPostsByUser s2 u.id = .ok [p]) ∧
    createPost
        { sampleStore with users := sampleStore.users ++ [User.new (.ofNat 5) sampleInput],
                           nextId := 6 }
        ⟨"T", "C", "000000000000000000000005"⟩ 1000 =
      .ok ({ _id := .ofNat 6, userId := .ofNat 5, title := "T", content := "C",
             createdAt := 1000 },
           { users := sampleStore.users ++ [User.new (.ofNat 5) sampleInput],
             posts := sampleStore.posts ++
               [{ _id := .ofNat 6, userId := .ofNat 5, title := "T", content := "C",
                  createdAt := 1000 }],
             nextId := 7 }) :=
  ⟨by decide, by decide, by decide, by decide,
    match getPostsByUser_exact sampleStore "000000000000000000000000" (ObjectId.ofNat 0)
      sampleInput "T" "C" 1000 (by decide) with
    | ⟨⟨posts, h1, h2, h3, _⟩, _⟩ => ⟨posts, h1, h2, h3⟩,
    (getPostsByUser_exact sampleStore "000000000000000000000000" (ObjectId.ofNat 0)
      sampleInput "T" "C" 1000 (by decide)).2.1 (by decide) (by decide) (by decide),
    by decide⟩

/-! ## Dates -/

/-- Each day of a year falls in one row of the month table. -/
theorem monthOfDay_cases (d l : Int) :
    (d < 31 ∧ monthOfDay d l = 0) ∨ (31 ≤ d ∧ d < 59 + l ∧ monthOfDay d l = 1) ∨
    (59 + l ≤ d ∧ d < 90 + l ∧ monthOfDay d l = 2) ∨
    (90 + l ≤ d ∧ d < 120 + l ∧ monthOfDay d l = 3) ∨
    (120 + l ≤ d ∧ d < 151 + l ∧ monthOfDay d l = 4) ∨
    (151 + l ≤ d ∧ d < 181 + l ∧ monthOfDay d l = 5) ∨
    (181 + l ≤ d ∧ d < 212 + l ∧ monthOfDay d l = 6) ∨
    (212 + l ≤ d ∧ d < 243 + l ∧ monthOfDay d l = 7) ∨
    (243 + l ≤ d ∧ d < 273 + l ∧ monthOfDay d l = 8) ∨
    (273 + l ≤ d ∧ d < 304 + l ∧ monthOfDay d l = 9) ∨
    (304 + l ≤ d ∧ d < 334 + l ∧ monthOfDay d l = 10) ∨
    (334 + l ≤ d ∧ monthOfDay d l = 11) := by
  unfold monthOfDay
  by_cases h1 : d < 31
  · rw [if_pos h1]; exact Or.inl ⟨h1, rfl⟩
  rw [if_neg h1]
  by_cases h2 : d < 59 + l
  · rw [if_pos h2]; exact Or.inr (Or.inl ⟨by omega, h2, rfl⟩)
  rw [if_neg h2]
  by_cases h3 : d < 90 + l
  · rw [if_pos h3]; exact Or.inr (Or.inr (Or.inl ⟨by omega, h3, rfl⟩))
  rw [if_neg h3]
  by_cases h4 : d < 120 + l
  · rw [if_pos h4]; exact Or.inr (Or.inr (Or.inr (Or.inl ⟨by omega, h4, rfl⟩)))
  rw [if_neg h4]
  by_cases h5 : d < 151 + l
  · rw [if_pos h5]; exact Or.inr (Or.inr (Or.inr (Or.inr (Or.inl ⟨by omega, h5, rfl⟩))))
  rw [if_neg h5]
  by_cases h6 : d < 181 + l
  · rw [if_pos h6]
    exact Or.inr (Or.inr (Or.inr (Or.inr (Or.inr (Or.inl ⟨by omega, h6, rfl⟩)))))
  rw [if_neg h6]
  by_cases h7 : d < 212 + l
  · rw [if_pos h7]
    exact Or.inr (Or.inr (Or.inr (Or.inr (Or.inr (Or.inr (Or.inl ⟨by omega, h7, rfl⟩))))))
  rw [if_neg h7]
  by_cases h8 : d < 243 + l
  · rw [if_pos h8]
    exact Or.inr (Or.inr (Or.inr (Or.inr (Or.inr (Or.inr (Or.inr
      (Or.inl ⟨by omega, h8, rfl⟩)))))))
  rw [if_neg h8]
  by_cases h9 : d < 273 + l
  · rw [if_pos h9]
    exact Or.inr (Or.inr (Or.inr (Or.inr (Or.inr (Or.inr (Or.inr (Or.inr
      (Or.inl ⟨by omega, h9, rfl⟩))))))))
  rw [if_neg h9]
  by_cases h10 : d < 304 + l
  · rw [if_pos h10]
    exact Or.inr (Or.inr (Or.inr (Or.inr (Or.inr (Or.inr (Or.inr (Or.inr (Or.inr
      (Or.inl ⟨by omega, h10, rfl⟩)))))))))
  rw [if_neg h10]
  by_cases h11 : d < 334 + l
  · rw [if_pos h11]
    exact Or.inr (Or.inr (Or.inr (Or.inr (Or.inr (Or.inr (Or.inr (Or.inr (Or.inr (Or.inr
      (Or.inl ⟨by omega, h11, rfl⟩))))))))))
  rw [if_neg h11]
  exact Or.inr (Or.inr (Or.inr (Or.inr (Or.inr (Or.inr (Or.inr (Or.inr (Or.inr (Or.inr
    (Or.inr ⟨by omega, rfl⟩))))))))))

theorem dateOfDay_range (d l : Int) (h0 : 0 ≤ d) (h1 : d < 365 + l) :
    0 ≤ monthOfDay d l ∧ monthOfDay d l ≤ 11 ∧
    1 ≤ dateOfDay d l ∧ dateOfDay d l ≤ monthLen (monthOfDay d l) l := by
  unfold dateOfDay monthLen
  rcases monthOfDay_cases d l with h | h | h | h | h | h | h | h | h | h | h | h
  all_goals
    (first
      | (obtain ⟨ha, hb, hm⟩ := h)
      | (obtain ⟨ha, hm⟩ := h))
  all_goals (rw [hm]; norm_num; omega)

theorem dayFromYear_succ (y : Int) : DayFromYear (y + 1) = DayFromYear y + DaysInYear y := by
  unfold DayFromYear DaysInYear
  split_ifs <;> omega

theorem yearFromTime_spec (t : Int) :
    DayFromYear (YearFromTime t) ≤ Day t ∧ Day t < DayFromYear (YearFromTime t + 1) := by
  unfold YearFromTime
  simp only
  generalize Day t = d
  generalize hy : 1970 + 400 * d / 146097 = y
  have hq1 : 146097 * (y - 1970) ≤ 400 * d := by omega
  have hq2 : 400 * d < 146097 * (y - 1970) + 146097 := by omega
  clear hy
  split_ifs with h1 h2
  · rw [sub_add_cancel]
    refine ⟨?_, h1⟩
    rw [show y = (y - 1) + 1 by ring, dayFromYear_succ] at h1
    unfold DayFromYear DaysInYear at *
    split_ifs at h1 <;> omega
  · refine ⟨h2, ?_⟩
    rw [dayFromYear_succ (y + 1)]
    unfold DayFromYear DaysInYear at *
    split_ifs <;> omega
  · exact ⟨not_lt.mp h1, not_le.mp h2⟩

theorem daysInYear_cases (y : Int) : DaysInYear y = 365 ∨ DaysInYear y = 366 := by
  unfold DaysInYear
  split_ifs <;> simp

theorem dayWithinYear_range (t : Int) :
    0 ≤ DayWithinYear t ∧ DayWithinYear t < 365 + InLeapYear t := by
  have h := yearFromTime_spec t
  rw [dayFromYear_succ] at h
  unfold DayWithinYear InLeapYear
  rcases daysInYear_cases (YearFromTime t) with h1 | h1
  · rw [if_neg (by omega)]; omega
  · rw [if_pos h1]; omega

theorem yearFromTime_bound (t : Int) (h : t.natAbs ≤ 8640000000000000) :
    -271821 ≤ YearFromTime t ∧ YearFromTime t ≤ 275760 := by
  have hs := yearFromTime_spec t
  have hd : -100000000 ≤ Day t ∧ Day t ≤ 100000000 := by
    unfold Day; omega
  generalize YearFromTime t = y at *
  generalize Day t = d at *
  unfold DayFromYear at hs
  omega

theorem daysInMonth_succ (y m : Int) (h0 : 0 ≤ m) (h1 : m ≤ 11) :
    ((daysInMonth y (m + 1).toNat : Nat) : Int) =
      monthLen m (if DaysInYear y = 366 then 1 else 0) := by
  unfold daysInMonth monthLen
  interval_cases m <;> simp
  all_goals split_ifs <;> rfl

theorem isDigit_dig (n : Nat) : (dig n).isDigit = true := by
  unfold dig
  have h : n % 10 < 10 := Nat.mod_lt _ (by decide)
  generalize n % 10 = k at h
  interval_cases k <;> rfl

theorem digitVal_dig (n : Nat) : digitVal (dig n) = n % 10 := by
  unfold dig
  have h : n % 10 < 10 := Nat.mod_lt _ (by decide)
  have hk : n % 10 % 10 = n % 10 := Nat.mod_mod _ _
  generalize n % 10 = k at h hk
  interval_cases k <;> rfl

theorem dig_ne_sign (n : Nat) : dig n ≠ '+' ∧ dig n ≠ '-' := by
  unfold dig
  have h : n % 10 < 10 := Nat.mod_lt _ (by decide)
  generalize n % 10 = k at h
  interval_cases k <;> decide

theorem numVal_pad2 (n : Nat) (h : n < 100) : numVal (pad2 n) = n := by
  unfold numVal pad2
  simp only [List.foldl, digitVal_dig]
  omega

theorem numVal_pad4 (n : Nat) (h : n < 10000) : numVal (pad4 n) = n := by
  unfold numVal pad4
  simp only [List.foldl, digitVal_dig]
  omega

theorem numVal_pad6 (n : Nat) (h : n < 1000000) : numVal (pad6 n) = n := by
  unfold numVal pad6
  simp only [List.foldl, digitVal_dig]
  omega


theorem daysInMonth_le (y : Int) (m : Nat) : daysInMonth y m ≤ 31 := by
  unfold daysInMonth
  split_ifs <;> omega

theorem numVal_pad3 (n : Nat) (h : n < 1000) : numVal (pad3 n) = n := by
  unfold numVal pad3
  simp only [List.foldl, digitVal_dig]
  omega

theorem readFields_pad (year : Int) (mo da ho mi se ms : Nat) (hmo : mo < 100) (hda : da < 100)
    (hho : ho < 100) (hmi : mi < 100) (hse : se < 100) (hms : ms < 1000) :
    readFields year ('-' :: (pad2 mo ++ '-' :: (pad2 da ++ 'T' :: (pad2 ho ++ ':' ::
      (pad2 mi ++ ':' :: (pad2 se ++ '.' :: (pad3 ms ++ ['Z']))))))) =
      some { year := year, month := mo, day := da, hour := ho, minute := mi, second := se,
             ms := ms } := by
  have e1 := numVal_pad2 mo hmo
  have e2 := numVal_pad2 da hda
  have e3 := numVal_pad2 ho hho
  have e4 := numVal_pad2 mi hmi
  have e5 := numVal_pad2 se hse
  have e6 := numVal_pad3 ms hms
  unfold pad2 at e1 e2 e3 e4 e5
  unfold pad3 at e6
  unfold pad2 pad3
  simp only [List.cons_append, List.nil_append]
  unfold readFields
  simp only [e1, e2, e3, e4, e5, e6, List.all_cons, List.all_nil, isDigit_dig, beq_self_eq_true,
    Bool.and_true, if_true]

theorem timeFields_range (t : Int) :
    0 ≤ HourFromTime t ∧ HourFromTime t ≤ 23 ∧ 0 ≤ MinFromTime t ∧ MinFromTime t ≤ 59 ∧
    0 ≤ SecFromTime t ∧ SecFromTime t ≤ 59 ∧ 0 ≤ msFromTime t ∧ msFromTime t ≤ 999 := by
  unfold HourFromTime MinFromTime SecFromTime msFromTime
  omega

theorem calendar_range (t : Int) :
    0 ≤ MonthFromTime t ∧ MonthFromTime t ≤ 11 ∧ 1 ≤ DateFromTime t ∧
    (DateFromTime t).toNat ≤ daysInMonth (YearFromTime t) (MonthFromTime t + 1).toNat := by
  have hd := dayWithinYear_range t
  have hr := dateOfDay_range (DayWithinYear t) (InLeapYear t) hd.1 hd.2
  have hlen : ((daysInMonth (YearFromTime t) (MonthFromTime t + 1).toNat : Nat) : Int) =
      monthLen (MonthFromTime t) (InLeapYear t) :=
    daysInMonth_succ (YearFromTime t) (MonthFromTime t) hr.1 hr.2.1
  have hdate : 1 ≤ DateFromTime t ∧
      DateFromTime t ≤ monthLen (MonthFromTime t) (InLeapYear t) := hr.2.2
  have hm : 0 ≤ MonthFromTime t ∧ MonthFromTime t ≤ 11 := ⟨hr.1, hr.2.1⟩
  refine ⟨hm.1, hm.2, hdate.1, ?_⟩
  omega

theorem readFields_toISO (t : Int) :
    readFields (YearFromTime t) ('-' :: (pad2 (MonthFromTime t + 1).toNat ++
      '-' :: (pad2 (DateFromTime t).toNat ++ 'T' :: (pad2 (HourFromTime t).toNat ++ ':' ::
      (pad2 (MinFromTime t).toNat ++ ':' :: (pad2 (SecFromTime t).toNat ++ '.' ::
      (pad3 (msFromTime t).toNat ++ ['Z']))))))) = some (fieldsOfTime t) := by
  have hc := calendar_range t
  have htf := timeFields_range t
  have hd31 := daysInMonth_le (YearFromTime t) (MonthFromTime t + 1).toNat
  exact readFields_pad _ _ _ _ _ _ _ (by omega) (by omega) (by omega) (by omega) (by omega)
    (by omega)

theorem readDateTime_toISO (t : Int) (h : t.natAbs ≤ 8640000000000000) :
    readDateTime (String.mk (toISOChars t)) = some (fieldsOfTime t) := by
  have hy := yearFromTime_bound t h
  have hf := readFields_toISO t
  unfold readDateTime toISOChars yearChars
  unfold pad2 pad3 at hf ⊢
  simp only [List.cons_append, List.nil_append] at hf
  by_cases h4 : 0 ≤ YearFromTime t ∧ YearFromTime t ≤ 9999
  · have hv := numVal_pad4 (YearFromTime t).toNat (by omega)
    have hcast : (((YearFromTime t).toNat : Nat) : Int) = YearFromTime t := by omega
    rw [if_pos h4]
    unfold pad4 at hv ⊢
    simp only [List.cons_append, List.nil_append, List.append_assoc]
    rw [if_neg (dig_ne_sign _).1, if_neg (dig_ne_sign _).2, hv, hcast]
    simp only [List.all_cons, List.all_nil, isDigit_dig, Bool.and_true, if_true]
    exact hf
  · have hv := numVal_pad6 (YearFromTime t).natAbs (by omega)
    rw [if_neg h4]
    unfold pad6 at hv ⊢
    by_cases hneg : YearFromTime t < 0
    · have hcast : -(((YearFromTime t).natAbs : Nat) : Int) = YearFromTime t := by omega
      have hnz : (YearFromTime t).natAbs ≠ 0 := by omega
      rw [if_pos hneg]
      simp only [List.cons_append, List.nil_append, List.append_assoc]
      rw [if_pos trivial, hv, hcast]
      simp only [List.all_cons, List.all_nil, isDigit_dig, Bool.and_true, true_and]
      rw [if_pos hnz]
      exact hf
    · have hcast : (((YearFromTime t).natAbs : Nat) : Int) = YearFromTime t := by omega
      rw [if_neg hneg]
      simp only [List.cons_append, List.nil_append, List.append_assoc]
      rw [if_pos trivial, hv, hcast]
      simp only [List.all_cons, List.all_nil, isDigit_dig, Bool.and_true, if_true]
      exact hf

theorem fieldsOfTime_inRange (t : Int) : (fieldsOfTime t).inRange = true := by
  have hc := calendar_range t
  have htf := timeFields_range t
  unfold DateFields.inRange fieldsOfTime
  simp only [Bool.and_eq_true, decide_eq_true_eq]
  refine ⟨⟨⟨⟨⟨⟨?_, ?_⟩, ?_⟩, hc.2.2.2⟩, ?_⟩, ?_⟩, ?_⟩ <;> omega

theorem monthStart_add_date (d l : Int) :
    monthStart (monthOfDay d l) l + dateOfDay d l - 1 = d := by
  unfold dateOfDay monthStart
  rcases monthOfDay_cases d l with h | h | h | h | h | h | h | h | h | h | h | h
  all_goals
    (first
      | (obtain ⟨ha, hb, hm⟩ := h)
      | (obtain ⟨ha, hm⟩ := h))
  all_goals (rw [hm]; norm_num)
  all_goals omega

theorem fieldsOfTime_timeValue (t : Int) : (fieldsOfTime t).timeValue = t := by
  have hc := calendar_range t
  have htf := timeFields_range t
  have hd := dayWithinYear_range t
  have hmd := monthStart_add_date (DayWithinYear t) (InLeapYear t)
  have hday : DayFromYear (YearFromTime t) + DayWithinYear t = Day t := by
    unfold DayWithinYear; omega
  have e1 : (((MonthFromTime t + 1).toNat : Nat) : Int) - 1 = MonthFromTime t := by omega
  have e2 : (((DateFromTime t).toNat : Nat) : Int) = DateFromTime t := by omega
  have e3 : (((HourFromTime t).toNat : Nat) : Int) = HourFromTime t := by omega
  have e4 : (((MinFromTime t).toNat : Nat) : Int) = MinFromTime t := by omega
  have e5 : (((SecFromTime t).toNat : Nat) : Int) = SecFromTime t := by omega
  have e6 : (((msFromTime t).toNat : Nat) : Int) = msFromTime t := by omega
  unfold DateFields.timeValue fieldsOfTime
  simp only [e1, e2, e3, e4, e5, e6]
  unfold MakeDate MakeDay MakeTime
  have hl : (if DaysInYear (YearFromTime t) = 366 then (1 : Int) else 0) = InLeapYear t := rfl
  rw [hl]
  have hmd2 : monthStart (MonthFromTime t) (InLeapYear t) + DateFromTime t - 1 =
      DayWithinYear t := hmd
  have hD : DayFromYear (YearFromTime t) + monthStart (MonthFromTime t) (InLeapYear t) +
      DateFromTime t - 1 = Day t := by omega
  rw [hD]
  unfold Day HourFromTime MinFromTime SecFromTime msFromTime
  omega


theorem toISOString_examples :
    toISOString (some 0) = .ok "1970-01-01T00:00:00.000Z" ∧
    toISOString (some (-1)) = .ok "1969-12-31T23:59:59.999Z" ∧
    toISOString (some 1700000000000) = .ok "2023-11-14T22:13:20.000Z" ∧
    toISOString (some 1709164800000) = .ok "2024-02-29T00:00:00.000Z" ∧
    toISOString (some 951782400000) = .ok "2000-02-29T00:00:00.000Z" ∧
    toISOString (some (-2203891200000)) = .ok "1900-03-01T00:00:00.000Z" ∧
    toISOString (some (-62167219200000)) = .ok "0000-01-01T00:00:00.000Z" ∧
    toISOString (some (-62167219200001)) = .ok "-000001-12-31T23:59:59.999Z" ∧
    toISOString (some 253402300799999) = .ok "9999-12-31T23:59:59.999Z" ∧
    toISOString (some 253402300800000) = .ok "+010000-01-01T00:00:00.000Z" ∧
    toISOString (some 8640000000000000) = .ok "+275760-09-13T00:00:00.000Z" ∧
    toISOString (some (-8640000000000000)) = .ok "-271821-04-20T00:00:00.000Z" := by
  refine ⟨?_, ?_, ?_, ?_, ?_, ?_, ?_, ?_, ?_, ?_, ?_, ?_⟩ <;> decide

theorem isISODateTime_examples :
    isISODateTime "1970-01-01T00:00:00.000Z" = true ∧
    isISODateTime "2024-02-29T00:00:00.000Z" = true ∧
    isISODateTime "2023-02-29T00:00:00.000Z" = false ∧
    isISODateTime "2023-13-01T00:00:00.000Z" = false ∧
    isISODateTime "+275760-09-13T00:00:00.000Z" = true ∧
    isISODateTime "-000000-01-01T00:00:00.000Z" = false ∧
    isISODateTime "Invalid Date" = false ∧
    isISODateTime "2023-11-14 22:13:20" = false := by
  refine ⟨?_, ?_, ?_, ?_, ?_, ?_, ?_, ?_⟩ <;> decide

/-- For a valid time value `toISOString` returns a string of the Date Time
String Format, and `Date.parse` reads that string back as the same time. -/
theorem toISOString_valid (impl : String → Option Int) (t : Int)
    (h : t.natAbs ≤ 8640000000000000) :
    toISOString (some t) = .ok (String.mk (toISOChars t)) ∧
    isISODateTime (String.mk (toISOChars t)) = true ∧
    dateParse impl (String.mk (toISOChars t)) = some t := by
  refine ⟨rfl, ?_, ?_⟩
  · unfold isISODateTime
    rw [readDateTime_toISO t h]
    exact fieldsOfTime_inRange t
  · unfold dateParse
    rw [readDateTime_toISO t h]
    simp only [fieldsOfTime_inRange t, if_true, fieldsOfTime_timeValue t]

theorem timeClip_valid (t : Int) (h : t.natAbs ≤ 8640000000000000) : timeClip t = some t := by
  unfold timeClip
  rw [if_pos h]

theorem timeClip_some (t t' : Int) (h : timeClip t = some t') :
    t' = t ∧ t.natAbs ≤ 8640000000000000 := by
  unfold timeClip at h
  split at h
  · rename_i hle
    cases h
    exact ⟨rfl, hle⟩
  · cases h

/-- The string `toISOString` writes for a valid time is a date-time of the
format whose fields, read back, name that time. -/
theorem toISOChars_reads (t : Int) (h : t.natAbs ≤ 8640000000000000) :
    isISODateTime (String.mk (toISOChars t)) = true ∧
    ∃ f, readDateTime (String.mk (toISOChars t)) = some f ∧ f.inRange = true ∧
      f.timeValue = t :=
  ⟨(toISOString_valid (fun _ => none) t h).2.1,
    fieldsOfTime t, readDateTime_toISO t h, fieldsOfTime_inRange t, fieldsOfTime_timeValue t⟩

theorem toISOChars_ne_empty (t : Int) (h : t.natAbs ≤ 8640000000000000) :
    String.mk (toISOChars t) ≠ "" := by
  intro hempty
  have hr := readDateTime_toISO t h
  have hnone : readDateTime "" = none := by decide
  rw [hempty, hnone] at hr
  cases hr

/-- The time the resolver renders for a document made from a stored value: the
stored time when the value is a valid date or a string read as one. -/
theorem createdAt_of_stored (impl : String → Option Int) (now : Int) (stored : JsValue)
    (hnow : now.natAbs ≤ 8640000000000000) :
    ∃ τ : Int, τ.natAbs ≤ 8640000000000000 ∧
      PostResolvers.createdAt impl ⟨hydrateCreatedAt impl now stored⟩ =
        .ok (String.mk (toISOChars τ)) ∧
      (∀ t, stored = .date (some t) → t.natAbs ≤ 8640000000000000 → τ = t) ∧
      (∀ s t, stored = .str s → s ≠ "" → dateParse impl s = some t →
        t.natAbs ≤ 8640000000000000 → τ = t) := by
  have hclipnow := timeClip_valid now hnow
  cases stored with
  | date tv =>
    cases hb : tv.bind timeClip with
    | some t' =>
      obtain ⟨t0, ht0⟩ : ∃ t0, tv = some t0 := by
        cases tv with
        | none => simp at hb
        | some t0 => exact ⟨t0, rfl⟩
      subst ht0
      have hcl : timeClip t0 = some t' := hb
      obtain ⟨heq, hval⟩ := timeClip_some t0 t' hcl
      subst heq
      refine ⟨t', hval, ?_, ?_, ?_⟩
      · unfold hydrateCreatedAt
        simp only [hb]
        rfl
      · intro t ht _
        cases ht
        rfl
      · intro s t hs
        cases hs
    | none =>
      refine ⟨now, hnow, ?_, ?_, ?_⟩
      · unfold hydrateCreatedAt
        simp only [hb, hclipnow]
        rfl
      · intro t ht hval
        cases ht
        have : (some t).bind timeClip = some t := timeClip_valid t hval
        rw [this] at hb
        cases hb
      · intro s t hs
        cases hs
  | str s =>
    by_cases hs : s = ""
    · refine ⟨0, by decide, ?_, ?_, ?_⟩
      · unfold hydrateCreatedAt
        simp only [hs, if_true]
        rfl
      · intro t ht
        cases ht
      · intro s' t hs' hne
        cases hs'
        exact absurd hs hne
    · cases hb : (dateParse impl s).bind timeClip with
      | some t' =>
        obtain ⟨t0, ht0⟩ : ∃ t0, dateParse impl s = some t0 := by
          cases hp : dateParse impl s with
          | none => rw [hp] at hb; simp at hb
          | some t0 => exact ⟨t0, rfl⟩
        have hcl : timeClip t0 = some t' := by
          rw [ht0] at hb
          exact hb
        obtain ⟨heq, hval⟩ := timeClip_some t0 t' hcl
        subst heq
        refine ⟨t', hval, ?_, ?_, ?_⟩
        · unfold hydrateCreatedAt
          simp only [hs, if_false, hb]
          rfl
        · intro t ht
          cases ht
        · intro s' t hs' _ hp _
          cases hs'
          rw [ht0] at hp
          cases hp
          rfl
      | none =>
        refine ⟨now, hnow, ?_, ?_, ?_⟩
        · unfold hydrateCreatedAt
          simp only [hs, if_false, hb, hclipnow]
          rfl
        · intro t ht
          cases ht
        · intro s' t hs' _ hp hval
          cases hs'
          rw [hp] at hb
          have : (some t).bind timeClip = some t := timeClip_valid t hval
          rw [this] at hb
          cases hb
  | null =>
    refine ⟨0, by decide, rfl, ?_, ?_⟩
    · intro t ht
      cases ht
    · intro s t hs
      cases hs
  | undefined =>
    refine ⟨now, hnow, ?_, ?_, ?_⟩
    · unfold hydrateCreatedAt
      simp only [hclipnow]
      rfl
    · intro t ht
      cases ht
    · intro s t hs
      cases hs

/-- C7. Whatever the store holds in `createdAt` (a native date, a string, null
or nothing), the `Post.createdAt` resolver returns, for the document Mongoose
makes of it, a valid ISO-8601 date-time string; it does not throw.  For a native
date with a valid time it is that date's rendering, whose fields read back
name that time; so it is for a string that `Date.parse` reads as a valid time,
and the ISO string of a valid date is returned as it is; the post `createPost`
made at a time `t0` renders `t0`. -/
theorem createdAt_iso (impl : String → Option Int) (now : Int) (stored : JsValue)
    (hnow : now.natAbs ≤ 8640000000000000) :
    ∃ iso, PostResolvers.createdAt impl ⟨hydrateCreatedAt impl now stored⟩ = .ok iso ∧
      isISODateTime iso = true ∧
      (∀ t, stored = .date (some t) → t.natAbs ≤ 8640000000000000 →
        toISOString (some t) = .ok iso ∧
        ∃ f, readDateTime iso = some f ∧ f.inRange = true ∧ f.timeValue = t) ∧
      (∀ s t, stored = .str s → s ≠ "" → dateParse impl s = some t →
        t.natAbs ≤ 8640000000000000 →
        ∃ f, readDateTime iso = some f ∧ f.inRange = true ∧ f.timeValue = t) ∧
      (∀ t, stored = .str (String.mk (toISOChars t)) → t.natAbs ≤ 8640000000000000 →
        iso = String.mk (toISOChars t)) ∧
      (∀ (s s' : Store) (input : PostInput) (p : Post) (t0 : Int),
        createPost s input t0 = .ok (p, s') → t0.natAbs ≤ 8640000000000000 →
        stored = p.storedCreatedAt →
        ∃ f, readDateTime iso = some f ∧ f.inRange = true ∧ f.timeValue = t0) := by
  obtain ⟨τ, hτ, hres, hdate, hstr⟩ := createdAt_of_stored impl now stored hnow
  obtain ⟨hvalid, hread⟩ := toISOChars_reads τ hτ
  refine ⟨_, hres, hvalid, ?_, ?_, ?_, ?_⟩
  · intro t ht hval
    have := hdate t ht hval
    subst this
    exact ⟨rfl, hread⟩
  · intro s t hs hne hp hval
    have := hstr s t hs hne hp hval
    subst this
    exact hread
  · intro t ht hval
    have := hstr _ t ht (toISOChars_ne_empty t hval) (toISOString_valid impl t hval).2.2 hval
    subst this
    rfl
  · intro s s' input p t0 hok hval hst
    obtain ⟨uid, _, hp, _, _⟩ := createPost_inv s s' input t0 p hok
    have hcreated : p.createdAt = t0 := by
      rw [hp]
      rfl
    have hst' : stored = .date (some t0) := by
      rw [hst]
      unfold Post.storedCreatedAt
      rw [hcreated, timeClip_valid t0 hval]
    have := hdate t0 hst' hval
    subst this
    exact hread

theorem createdAt_iso_witness :
    (0 : Int).natAbs ≤ 8640000000000000 ∧
    PostResolvers.createdAt (fun _ => none)
        ⟨hydrateCreatedAt (fun _ => none) 0 (.date (some 1700000000000))⟩ =
      .ok "2023-11-14T22:13:20.000Z" ∧
    PostResolvers.createdAt (fun _ => none)
        ⟨hydrateCreatedAt (fun _ => none) 0 (.str "2023-11-14T22:13:20.000Z")⟩ =
      .ok "2023-11-14T22:13:20.000Z" ∧
    PostResolvers.createdAt (fun _ => none)
        ⟨hydrateCreatedAt (fun _ => none) 1709164800000 (.date none)⟩ =
      .ok "2024-02-29T00:00:00.000Z" ∧
    PostResolvers.createdAt (fun _ => none)
        ⟨hydrateCreatedAt (fun _ => none) 1709164800000 (.str "Invalid Date")⟩ =
      .ok "2024-02-29T00:00:00.000Z" ∧
    PostResolvers.createdAt (fun _ => none)
        (Post.toObject (fun _ => none) 0
          { _id := .ofNat 4, userId := .ofNat 0, title := "T3", content := "C3",
            createdAt := 9000000000000000 }) =
      .ok "1970-01-01T00:00:00.000Z" ∧
    ∃ iso, PostResolvers.createdAt (fun _ => none)
        ⟨hydrateCreatedAt (fun _ => none) 0 (.date (some 1700000000000))⟩ = .ok iso ∧
      isISODateTime iso = true :=
  ⟨by decide, by decide, by decide, by decide, by decide, by decide,
    match createdAt_iso (fun _ => none) 0 (.date (some 1700000000000)) (by decide) with
    | ⟨iso, h1, h2, _⟩ => ⟨iso, h1, h2⟩⟩

end MongoDBServer
